import Mathlib

/-! Verification of the Redis command analyzer (lexer, parser, semantic validator).

Shallow embedding of the analysis core of the AnalizadorREDIS repository:

* `backend/lexer/token.go` — token model and keyword lookup;
* the lexer (`Lexer.NextToken` and its helpers);
* the AST node model (`RedisCommand`, expression variants, `String()` rendering);
* `backend/parser/parser.go` — recursive-descent parser (`ParseCommand`,
  `ParseCommands`, `ParseProgram`, `parseRedisCommand`, `parseExpression`,
  `parsePatternExpression`, `parseRangeExpression`);
* `backend/semantic/analyzer.go` — command specification table and
  `ValidateCommand` with its phases (`validateArgumentTypes`,
  `validateOptions`, `validateOptionValue`).

Modelling conventions, stated once:

* Go strings are `List Char`/`String` over their characters; the source scans
  bytes, so the embedding agrees with the source on ASCII input (all inputs
  appearing in theorems are ASCII).  A NUL byte embedded in the input is
  treated by the Go lexer as end of input; inputs are assumed NUL-free.
* Token source positions (byte offset, line, column) are carried by the Go
  lexer only for error-message locations; no verified property concerns them,
  so tokens here carry kind and literal only, and parser error messages omit
  the "at line L, column C" prefix while keeping the message body verbatim.
* Go's `strconv.ParseInt(lit, 0, 64)` is modelled on exactly the literal
  shapes the lexer can produce (an optional minus sign followed by decimal
  digits): a literal with a leading zero and more digits is parsed as octal,
  and results outside the int64 range are errors.
* `FloatLiteral` stores the raw literal; `strconv.ParseFloat` on the digit
  strings the lexer can produce only fails for astronomically long literals
  (range overflow), which is not modelled, and the `%f` rendering of the
  parsed double is not modelled (no verified property renders a float).
* Go's typed-nil quirk is modelled faithfully: a failed
  `parseIntegerLiteral` / `parseFloatLiteral` / `parseRangeExpression`
  returns a typed nil pointer, which the callers' `!= nil` checks do NOT
  filter out; such a value appears as `Expression.nilNode ty` (its `Type()`
  still answers, its `String()` would panic in Go — rendered "" here, never
  exercised).  Likewise a failed `parseRedisCommand` inside `parseStatement`
  becomes a non-nil `Statement` interface holding a nil `*RedisCommand`,
  modelled as a `none` entry in the statement list.
-/

namespace RedisAnalyzer

/-! ## Token model — `backend/lexer/token.go` -/

/-- `TokenType` from `token.go`.  `SPACE` is declared in the source but never
produced by the lexer. -/
inductive TokenType where
  | ILLEGAL | EOFT | IDENT | STRING | INT | FLOAT
  | SPACE | NEWLINE
  | ASTERISK | QUESTION | BRACKET_L | BRACKET_R | PAREN_L | PAREN_R
  | COMMA | COLON | PIPE | PLUS | MINUS
  | EX | PX | NX | XX | WITHSCORES | LIMIT | COUNT | MATCH | TYPE
deriving DecidableEq

/-- `TokenType.String` from `token.go` (used in parser error messages). -/
def tokenTypeName : TokenType → String
  | .ILLEGAL => "ILLEGAL"
  | .EOFT => "EOF"
  | .IDENT => "IDENT"
  | .STRING => "STRING"
  | .INT => "INT"
  | .FLOAT => "FLOAT"
  | .SPACE => "SPACE"
  | .NEWLINE => "NEWLINE"
  | .ASTERISK => "ASTERISK"
  | .QUESTION => "QUESTION"
  | .BRACKET_L => "BRACKET_L"
  | .BRACKET_R => "BRACKET_R"
  | .PAREN_L => "PAREN_L"
  | .PAREN_R => "PAREN_R"
  | .COMMA => "COMMA"
  | .COLON => "COLON"
  | .PIPE => "PIPE"
  | .PLUS => "PLUS"
  | .MINUS => "MINUS"
  | .EX => "EX"
  | .PX => "PX"
  | .NX => "NX"
  | .XX => "XX"
  | .WITHSCORES => "WITHSCORES"
  | .LIMIT => "LIMIT"
  | .COUNT => "COUNT"
  | .MATCH => "MATCH"
  | .TYPE => "TYPE"

/-- The `keywords` map from `token.go`. -/
def keywords : List (String × TokenType) :=
  [("EX", .EX), ("PX", .PX), ("NX", .NX), ("XX", .XX),
   ("WITHSCORES", .WITHSCORES), ("LIMIT", .LIMIT), ("COUNT", .COUNT),
   ("MATCH", .MATCH), ("TYPE", .TYPE)]

/-- Association-list lookup (Go map read; keys of every table are distinct). -/
def alookup {α : Type} : List (String × α) → String → Option α
  | [], _ => none
  | (k, v) :: rest, key => if k = key then some v else alookup rest key

/-- `LookupIdent` from `token.go`; the lexer calls it on the upper-cased
identifier text. -/
def lookupIdent (ident : String) : TokenType :=
  match alookup keywords ident with
  | some t => t
  | none => .IDENT

/-- A token: kind and literal (source positions not modelled, see header). -/
structure Token where
  type : TokenType
  literal : String
deriving DecidableEq

/-- Go `strings.ToUpper` on the ASCII inputs this grammar deals in
(structural, so that closed computations reduce in the kernel). -/
def charToUpper (c : Char) : Char :=
  if 'a' ≤ c ∧ c ≤ 'z' then Char.ofNat (c.toNat - 32) else c

/-- `strings.ToUpper` for a whole string. -/
def strToUpper (s : String) : String := ⟨s.data.map charToUpper⟩

/-! ## Lexer — `Lexer.NextToken` and helpers -/

/-- `isLetter` from the lexer. -/
def isLetter (c : Char) : Bool :=
  ('a' ≤ c && c ≤ 'z') || ('A' ≤ c && c ≤ 'Z') || c = '_'

/-- `isDigit` from the lexer. -/
def isDigit (c : Char) : Bool :=
  '0' ≤ c && c ≤ '9'

/-- Identifier continuation characters (`readIdentifier`'s loop condition). -/
def isIdentChar (c : Char) : Bool :=
  isLetter c || isDigit c || c = '_' || c = '-'

/-- `skipWhitespace`: spaces, tabs and carriage returns (not newlines). -/
def skipWhitespace : List Char → List Char
  | c :: cs => if c = ' ' || c = '\t' || c = '\r' then skipWhitespace cs else c :: cs
  | [] => []

/-- `readIdentifier`: consume letters, digits, `_`, `-`; returns the consumed
characters and the rest. -/
def readIdentifier : List Char → List Char × List Char
  | c :: cs =>
    if isIdentChar c then
      let (w, r) := readIdentifier cs
      (c :: w, r)
    else ([], c :: cs)
  | [] => ([], [])

/-- Digit-span helper used by `readNumber`. -/
def readDigits : List Char → List Char × List Char
  | c :: cs =>
    if isDigit c then
      let (w, r) := readDigits cs
      (c :: w, r)
    else ([], c :: cs)
  | [] => ([], [])

/-- `readNumber`: optional leading `-`, integer digits, then a fractional part
only when a `.` is immediately followed by a digit. -/
def readNumber (l : List Char) : List Char × List Char :=
  let (sign, l1) :=
    match l with
    | '-' :: rest => (['-'], rest)
    | _ => (([] : List Char), l)
  let (intPart, l2) := readDigits l1
  match l2 with
  | '.' :: d :: rest =>
    if isDigit d then
      let (frac, l3) := readDigits (d :: rest)
      (sign ++ intPart ++ '.' :: frac, l3)
    else (sign ++ intPart, l2)
  | _ => (sign ++ intPart, l2)

/-- `readString` / `readSingleQuoteString` after the opening quote `q`:
content runs to the matching quote or end of input; on a backslash the Go
loop consumes the backslash, the escaped character, AND leaves the character
after that unexamined (it is absorbed by the next loop-head `readChar`), so
all three land in the captured literal ungated.  (On input ending inside an
escape the Go code over-slices and panics; here the capture is clamped to
the end — no theorem exercises that corner.) -/
def readQuoted (q : Char) : List Char → List Char × List Char
  | [] => ([], [])
  | c :: cs =>
    if c = q then ([], cs)
    else if c = '\\' then
      match cs with
      | [] => ([c], [])
      | [d] => ([c, d], [])
      | d :: e :: es =>
        let (v, r) := readQuoted q es
        (c :: d :: e :: v, r)
    else
      let (v, r) := readQuoted q cs
      (c :: v, r)

/-- `NextToken`: skip blanks, then dispatch on the first character exactly as
the source's switch does.  Returns the token and the unconsumed rest. -/
def nextToken (input : List Char) : Token × List Char :=
  let l := skipWhitespace input
  match l with
  | [] => (⟨.EOFT, ""⟩, [])
  | c :: cs =>
    if c = '*' then (⟨.ASTERISK, "*"⟩, cs)
    else if c = '?' then (⟨.QUESTION, "?"⟩, cs)
    else if c = '[' then (⟨.BRACKET_L, "["⟩, cs)
    else if c = ']' then (⟨.BRACKET_R, "]"⟩, cs)
    else if c = '(' then (⟨.PAREN_L, "("⟩, cs)
    else if c = ')' then (⟨.PAREN_R, ")"⟩, cs)
    else if c = ',' then (⟨.COMMA, ","⟩, cs)
    else if c = ':' then (⟨.COLON, ":"⟩, cs)
    else if c = '|' then (⟨.PIPE, "|"⟩, cs)
    else if c = '+' then (⟨.PLUS, "+"⟩, cs)
    else if c = '-' then
      match cs with
      | d :: _ =>
        if isDigit d then
          let (num, r) := readNumber (c :: cs)
          (⟨if num.contains '.' then .FLOAT else .INT, ⟨num⟩⟩, r)
        else (⟨.MINUS, "-"⟩, cs)
      | [] => (⟨.MINUS, "-"⟩, cs)
    else if c = '"' then
      let (v, r) := readQuoted '"' cs
      (⟨.STRING, ⟨v⟩⟩, r)
    else if c = '\'' then
      let (v, r) := readQuoted '\'' cs
      (⟨.STRING, ⟨v⟩⟩, r)
    else if c = '\n' then (⟨.NEWLINE, "\n"⟩, cs)
    else if isLetter c then
      let (w, r) := readIdentifier (c :: cs)
      (⟨lookupIdent (strToUpper ⟨w⟩), ⟨w⟩⟩, r)
    else if isDigit c then
      let (num, r) := readNumber (c :: cs)
      (⟨if num.contains '.' then .FLOAT else .INT, ⟨num⟩⟩, r)
    else (⟨.ILLEGAL, String.singleton c⟩, cs)

/-- Repeated `NextToken` until EOF (the EOF token is included), as the parser
consumes the stream.  Fuel bounds the recursion; one unit per produced token
always suffices, and entry points pass `input.length + 1`. -/
def tokenizeAux : Nat → List Char → List Token
  | 0, _ => []
  | fuel + 1, l =>
    let (t, r) := nextToken l
    if t.type = .EOFT then [t] else t :: tokenizeAux fuel r

/-- Tokenize a whole input string. -/
def tokenize (s : String) : List Token :=
  tokenizeAux (s.length + 1) s.data

/-! ## AST node model — `src/unnamed/part_001` (parser package, AST file) -/

/-- The expression variants of the AST.  Nodes drop the `Token` field the Go
structs carry (only `Value` is ever read downstream).  `nilNode ty` is a Go
typed-nil node of dynamic type `ty` (see the header).  `OptionExpression` is
declared in the source but never constructed by the parser and is omitted. -/
inductive Expression where
  | identifier (value : String)
  | stringLit (value : String)
  | integerLit (value : Int)
  | floatLit (literal : String)
  | keywordExpr (value : String)
  | patternExpr (value : String)
  | rangeExpr (rangeStart rangeEnd : Expression)
  | nilNode (typeName : String)
deriving DecidableEq

/-- The `Type()` method of each expression node. -/
def exprType : Expression → String
  | .identifier _ => "Identifier"
  | .stringLit _ => "StringLiteral"
  | .integerLit _ => "IntegerLiteral"
  | .floatLit _ => "FloatLiteral"
  | .keywordExpr _ => "KeywordExpression"
  | .patternExpr _ => "PatternExpression"
  | .rangeExpr _ _ => "RangeExpression"
  | .nilNode ty => ty

/-- The `String()` method of each expression node.  A string literal is
wrapped in double quotes with NO escaping of its content, exactly as
`fmt.Sprintf("\"%s\"", sl.Value)` does.  For a float the Go code prints `%f`
of the parsed double; floats are stored here as their raw literal and no
verified property renders one.  `String()` on a `nilNode` panics in Go. -/
def exprString : Expression → String
  | .identifier v => v
  | .stringLit v => "\"" ++ v ++ "\""
  | .integerLit v => toString v
  | .floatLit lit => lit
  | .keywordExpr v => v
  | .patternExpr v => v
  | .rangeExpr a b => "[" ++ exprString a ++ ", " ++ exprString b ++ "]"
  | .nilNode _ => ""

/-- `RedisCommand`: command-name identifier plus ordered arguments. -/
structure RedisCommand where
  command : String
  arguments : List Expression
deriving DecidableEq

/-- `RedisCommand.String()`: `fmt.Sprintf("%s %s", name, args)` with the
arguments joined by single spaces (an empty argument list leaves the
trailing space). -/
def RedisCommand.render (rc : RedisCommand) : String :=
  rc.command ++ " " ++ String.intercalate " " (rc.arguments.map exprString)

/-- A program statement: in Go a `Statement` interface value that in practice
always holds a `*RedisCommand`, possibly a typed nil (`none` here). -/
def Statement := Option RedisCommand
deriving instance DecidableEq for Statement

/-! ## Parser — `backend/parser/parser.go`

The parser state is the unconsumed suffix of the token stream:
`curToken` is its head and `peekToken` the element after (both `EOF` past
the end, as the Go lexer keeps answering `EOF`). -/

/-- The token the exhausted lexer keeps producing. -/
def eofToken : Token := ⟨.EOFT, ""⟩

/-- `p.curToken`. -/
def curTok (s : List Token) : Token := s.headD eofToken

/-- `p.peekToken`. -/
def peekTok (s : List Token) : Token := (s.drop 1).headD eofToken

/-- `p.nextToken()`. -/
def advanceTok (s : List Token) : List Token := s.drop 1

/-- `strconv.ParseInt(lit, 0, 64)` on the literal shapes the lexer emits
(optional minus sign, then decimal digits): base-0 makes a leading zero on a
multi-digit literal select octal, digits must be below the base, and the
result must fit in int64. -/
def parseDigitsBase (base : Nat) : List Char → Option Nat
  | [] => some 0
  | ds =>
    ds.foldl
      (fun acc c =>
        match acc with
        | none => none
        | some n =>
          let d := c.toNat - '0'.toNat
          if isDigit c && d < base then some (n * base + d) else none)
      (some 0)

/-- Go `strconv.ParseInt` with base 0 and bit size 64, restricted to the
lexer's number literals. -/
def goParseInt (lit : String) : Option Int :=
  let (neg, ds) :=
    match lit.data with
    | '-' :: rest => (true, rest)
    | l => (false, l)
  match ds with
  | [] => none
  | d0 :: drest =>
    let mag :=
      if d0 = '0' && drest ≠ [] then parseDigitsBase 8 drest
      else parseDigitsBase 10 (d0 :: drest)
    match mag with
    | none => none
    | some m =>
      if neg then
        if m ≤ 2 ^ 63 then some (-(m : Int)) else none
      else
        if m ≤ 2 ^ 63 - 1 then some (m : Int) else none

/-- `parsePatternExpression`'s merge loop: while `peekToken` is `*`, `?`, an
identifier or `:`, advance and append the literal. -/
def patternLoop : Nat → List Token → String → String × List Token
  | 0, s, acc => (acc, s)
  | fuel + 1, s, acc =>
    let pt := (peekTok s).type
    if pt = .ASTERISK || pt = .QUESTION || pt = .IDENT || pt = .COLON then
      let s1 := advanceTok s
      patternLoop fuel s1 (acc ++ (curTok s1).literal)
    else (acc, s)

/-- `parseExpression` (with `parsePatternExpression` and
`parseRangeExpression` inlined at their single call sites).  Result `none`
is Go's untyped nil (the `default` arm); every other failure path returns a
typed nil, `Expression.nilNode`.  The returned token list is the state in
which `curToken` is the last token of the expression, as in the source. -/
def parseExpressionF : Nat → List Token → List String →
    Option Expression × List Token × List String
  | 0, s, errs => (none, s, errs)
  | fuel + 1, s, errs =>
    let t := curTok s
    match t.type with
    | .IDENT =>
      if (peekTok s).type = .COLON then
        let (pat, s1) := patternLoop fuel s t.literal
        (some (.patternExpr pat), s1, errs)
      else (some (.identifier t.literal), s, errs)
    | .STRING => (some (.stringLit t.literal), s, errs)
    | .INT =>
      match goParseInt t.literal with
      | some v => (some (.integerLit v), s, errs)
      | none =>
        (some (.nilNode "IntegerLiteral"), s,
          errs ++ ["could not parse \"" ++ t.literal ++ "\" as integer"])
    | .FLOAT => (some (.floatLit t.literal), s, errs)
    | .EX | .PX | .NX | .XX | .WITHSCORES | .LIMIT | .COUNT | .MATCH | .TYPE =>
      (some (.keywordExpr t.literal), s, errs)
    | .ASTERISK | .QUESTION =>
      let (pat, s1) := patternLoop fuel s t.literal
      (some (.patternExpr pat), s1, errs)
    | .BRACKET_L =>
      let s1 := advanceTok s
      match parseExpressionF fuel s1 errs with
      | (none, s2, e2) => (some (.nilNode "RangeExpression"), s2, e2)
      | (some startE, s2, e2) =>
        if (peekTok s2).type ≠ .COMMA then
          (some (.nilNode "RangeExpression"), s2,
            e2 ++ ["expected \x27,\x27 in range expression"])
        else
          let s3 := advanceTok (advanceTok s2)
          match parseExpressionF fuel s3 e2 with
          | (none, s4, e4) => (some (.nilNode "RangeExpression"), s4, e4)
          | (some endE, s4, e4) =>
            if (peekTok s4).type ≠ .BRACKET_R then
              (some (.nilNode "RangeExpression"), s4, e4 ++ ["expected \x27]\x27"])
            else (some (.rangeExpr startE endE), advanceTok s4, e4)
    | _ => (none, s, errs ++ ["unexpected token: " ++ tokenTypeName t.type])

/-- `parseRedisCommand`'s argument loop: while `peekToken` is neither EOF
nor a newline, advance, parse one expression, and keep it when non-nil
(typed nils included — only the untyped nil of the `default` arm is
dropped). -/
def parseArgsLoop : Nat → List Token → List String → List Expression →
    List Expression × List Token × List String
  | 0, s, errs, acc => (acc, s, errs)
  | fuel + 1, s, errs, acc =>
    let pt := (peekTok s).type
    if pt ≠ .EOFT ∧ pt ≠ .NEWLINE then
      let s1 := advanceTok s
      match parseExpressionF fuel s1 errs with
      | (some a, s2, e2) => parseArgsLoop fuel s2 e2 (acc ++ [a])
      | (none, s2, e2) => parseArgsLoop fuel s2 e2 acc
    else (acc, s, errs)

/-- `parseRedisCommand`: the current token must be an identifier (the
command name); otherwise record the error and return nil. -/
def parseRedisCommandF (fuel : Nat) (s : List Token) (errs : List String) :
    Option RedisCommand × List Token × List String :=
  if (curTok s).type ≠ .IDENT then
    (none, s, errs ++ ["expected command identifier, got " ++ tokenTypeName (curTok s).type])
  else
    let (args, s1, e1) := parseArgsLoop fuel s errs []
    (some ⟨(curTok s).literal, args⟩, s1, e1)

/-- `parseStatement`: skip newlines; at EOF return the untyped nil (outer
`none`); otherwise return `parseRedisCommand`'s result as a `Statement`
interface value — a non-nil interface even when the command is nil
(`some none`). -/
def skipNewlines (s : List Token) : List Token :=
  match s with
  | t :: rest => if t.type = .NEWLINE then skipNewlines rest else s
  | [] => []

def parseStatementF (fuel : Nat) (s : List Token) (errs : List String) :
    Option Statement × List Token × List String :=
  let s := skipNewlines s
  if (curTok s).type = .EOFT then (none, s, errs)
  else
    let (c, s1, e1) := parseRedisCommandF fuel s errs
    (some c, s1, e1)

/-- `ParseProgram`'s loop: while the current token is not EOF, parse a
statement, append it when the interface value is non-nil, and advance one
token. -/
def parseProgramF : Nat → List Token → List String → List Statement →
    List Statement × List String
  | 0, _, errs, acc => (acc, errs)
  | fuel + 1, s, errs, acc =>
    if (curTok s).type = .EOFT then (acc, errs)
    else
      let (stmtOpt, s1, e1) := parseStatementF fuel s errs
      let acc1 := match stmtOpt with
        | some st => acc ++ [st]
        | none => acc
      parseProgramF fuel (advanceTok s1) e1 acc1

/-- `ParseCommand(input)`: lex, then parse a single command. -/
def ParseCommand (input : String) : Option RedisCommand × List String :=
  let ts := tokenize input
  let (c, _, errs) := parseRedisCommandF (2 * ts.length + 2) ts []
  (c, errs)

/-- `ParseCommands(input)`: lex, then parse a whole program. -/
def ParseCommands (input : String) : List Statement × List String :=
  let ts := tokenize input
  parseProgramF (2 * ts.length + 2) ts [] []

/-! ## Semantic validator — `backend/semantic/analyzer.go` -/

/-- `OptionSpec`. -/
structure OptionSpec where
  hasValue : Bool
  valueType : String
  description : String
  conflicts : List String
deriving DecidableEq

/-- `CommandSpec` (`MaxArgs = -1` means unbounded, `KeyPosition = -1` means
no key). -/
structure CommandSpec where
  name : String
  minArgs : Int
  maxArgs : Int
  keyPosition : Int
  valueTypes : List String
  options : List (String × OptionSpec)
  description : String
deriving DecidableEq

/-- `SemanticError` (the source field `Type` is `etype` here; the
never-assigned `Position` field is dropped). -/
structure SemanticError where
  message : String
  command : String
  etype : String
deriving DecidableEq

/-- A `CommandInfo` map value (`interface{}` holding a string or a bool). -/
inductive InfoValue where
  | str (s : String)
  | flag (b : Bool)
deriving DecidableEq

/-- `ValidationResult`. -/
structure ValidationResult where
  valid : Bool
  errors : List SemanticError
  warnings : List String
  commandInfo : List (String × InfoValue)
deriving DecidableEq

/-- Append a semantic error (every `result.Errors = append(...)` site also
sets `result.Valid = false`). -/
def appendErr (r : ValidationResult) (e : SemanticError) : ValidationResult :=
  { r with errors := r.errors ++ [e], valid := false }

/-- Append a warning (warnings never clear `Valid`). -/
def appendWarn (r : ValidationResult) (w : String) : ValidationResult :=
  { r with warnings := r.warnings ++ [w] }

/-- `initializeCommands`: the process-wide specification table, keyed by
uppercase command name. -/
def commandsTable : List (String × CommandSpec) :=
  [ ("GET",
     { name := "GET", minArgs := 1, maxArgs := 1, keyPosition := 0,
       valueTypes := ["key"], options := [],
       description := "Get the value of a key" }),
    ("SET",
     { name := "SET", minArgs := 2, maxArgs := -1, keyPosition := 0,
       valueTypes := ["key", "value"],
       options :=
         [ ("EX", { hasValue := true, valueType := "integer",
                    description := "Set expiry in seconds", conflicts := [] }),
           ("PX", { hasValue := true, valueType := "integer",
                    description := "Set expiry in milliseconds", conflicts := ["EX"] }),
           ("NX", { hasValue := false, valueType := "",
                    description := "Only set if key doesn\x27t exist", conflicts := ["XX"] }),
           ("XX", { hasValue := false, valueType := "",
                    description := "Only set if key exists", conflicts := ["NX"] }) ],
       description := "Set the string value of a key" }),
    ("DEL",
     { name := "DEL", minArgs := 1, maxArgs := -1, keyPosition := 0,
       valueTypes := ["key"], options := [],
       description := "Delete one or more keys" }),
    ("HGET",
     { name := "HGET", minArgs := 2, maxArgs := 2, keyPosition := 0,
       valueTypes := ["key", "field"], options := [],
       description := "Get the value of a hash field" }),
    ("HSET",
     { name := "HSET", minArgs := 3, maxArgs := -1, keyPosition := 0,
       valueTypes := ["key", "field", "value"], options := [],
       description := "Set the string value of a hash field" }),
    ("ZADD",
     { name := "ZADD", minArgs := 3, maxArgs := -1, keyPosition := 0,
       valueTypes := ["key", "score", "member"],
       options :=
         [ ("NX", { hasValue := false, valueType := "",
                    description := "Only add new elements", conflicts := ["XX"] }),
           ("XX", { hasValue := false, valueType := "",
                    description := "Only update existing elements", conflicts := ["NX"] }) ],
       description := "Add one or more members to a sorted set" }),
    ("ZRANGE",
     { name := "ZRANGE", minArgs := 3, maxArgs := -1, keyPosition := 0,
       valueTypes := ["key", "start", "stop"],
       options :=
         [ ("WITHSCORES", { hasValue := false, valueType := "",
                            description := "Return scores along with members",
                            conflicts := [] }) ],
       description := "Return a range of members in a sorted set" }),
    ("SCAN",
     { name := "SCAN", minArgs := 1, maxArgs := -1, keyPosition := -1,
       valueTypes := ["cursor"],
       options :=
         [ ("MATCH", { hasValue := true, valueType := "pattern",
                       description := "Match pattern", conflicts := [] }),
           ("COUNT", { hasValue := true, valueType := "integer",
                       description := "Number of elements to return", conflicts := [] }),
           ("TYPE", { hasValue := true, valueType := "string",
                      description := "Filter by type", conflicts := [] }) ],
       description := "Incrementally iterate over keys" }) ]

/-- `a.commands[name]` for the analyzer built by `New()`. -/
def lookupCommand (name : String) : Option CommandSpec :=
  alookup commandsTable name

/-- One case of `validateArgumentTypes`'s switch: the error (if any) for the
argument at 0-based index `i` of declared category `expected` and actual
node type `actualType`.  The `value` category and any category outside the
switch accept everything. -/
def typeCheckOne (cmdName : String) (i : Nat) (expected actualType : String) :
    Option SemanticError :=
  if expected = "key" then
    if actualType ≠ "Identifier" ∧ actualType ≠ "StringLiteral" ∧
        actualType ≠ "PatternExpression" then
      some ⟨"Argument " ++ toString (i + 1) ++
        " should be a key (identifier or string), got " ++ actualType,
        cmdName, "TYPE_MISMATCH"⟩
    else none
  else if expected = "value" then none
  else if expected = "field" then
    if actualType ≠ "Identifier" ∧ actualType ≠ "StringLiteral" then
      some ⟨"Argument " ++ toString (i + 1) ++ " should be a field name, got " ++
        actualType, cmdName, "TYPE_MISMATCH"⟩
    else none
  else if expected = "score" then
    if actualType ≠ "IntegerLiteral" ∧ actualType ≠ "FloatLiteral" then
      some ⟨"Argument " ++ toString (i + 1) ++ " should be a numeric score, got " ++
        actualType, cmdName, "TYPE_MISMATCH"⟩
    else none
  else if expected = "member" then
    if actualType ≠ "Identifier" ∧ actualType ≠ "StringLiteral" then
      some ⟨"Argument " ++ toString (i + 1) ++ " should be a member name, got " ++
        actualType, cmdName, "TYPE_MISMATCH"⟩
    else none
  else if expected = "cursor" then
    if actualType ≠ "IntegerLiteral" then
      some ⟨"Argument " ++ toString (i + 1) ++ " should be a cursor (integer), got " ++
        actualType, cmdName, "TYPE_MISMATCH"⟩
    else none
  else if expected = "start" ∨ expected = "stop" then
    if actualType ≠ "IntegerLiteral" then
      some ⟨"Argument " ++ toString (i + 1) ++ " should be an index (integer), got " ++
        actualType, cmdName, "TYPE_MISMATCH"⟩
    else none
  else none

/-- `validateArgumentTypes`: walk arguments against the declared value
categories in parallel, stopping at whichever list ends first (`break` when
`i >= len(spec.ValueTypes)`); a mismatch appends its error and checking
continues. -/
def validateArgumentTypesAux (cmdName : String) :
    List Expression → List String → Nat → ValidationResult → ValidationResult
  | [], _, _, r => r
  | _, [], _, r => r
  | arg :: args, et :: ets, i, r =>
    let r1 :=
      match typeCheckOne cmdName i et (exprType arg) with
      | some e => appendErr r e
      | none => r
    validateArgumentTypesAux cmdName args ets (i + 1) r1

/-- The command name `validateOptionValue` reads back from
`result.CommandInfo["name"]` ("unknown" when absent or not a string). -/
def infoName (info : List (String × InfoValue)) : String :=
  match alookup info "name" with
  | some (.str s) => s
  | _ => "unknown"

/-- `validateOptionValue`: check an option's value against its declared
value category; for `integer` additionally apply the EX/PX positivity rule.
(Go's `value.(*parser.IntegerLiteral)` type assertion succeeds on a typed
nil and then panics dereferencing `.Value`; that path — node type
"IntegerLiteral" without an actual `integerLit` — is unreachable without a
panic in Go and is a no-op here.) -/
def validateOptionValue (optionName : String) (os : OptionSpec)
    (value : Expression) (r : ValidationResult) : ValidationResult :=
  let valueType := exprType value
  let commandName := infoName r.commandInfo
  if os.valueType = "integer" then
    if valueType ≠ "IntegerLiteral" then
      appendErr r ⟨"Option \x27" ++ optionName ++ "\x27 expects an integer value, got " ++
        valueType, commandName, "OPTION_TYPE_MISMATCH"⟩
    else
      match value with
      | .integerLit v =>
        if (optionName = "EX" ∨ optionName = "PX") ∧ v ≤ 0 then
          appendErr r ⟨"Expiration time must be positive, got " ++ toString v,
            commandName, "INVALID_VALUE_RANGE"⟩
        else r
      | _ => r
  else if os.valueType = "pattern" then
    if valueType ≠ "PatternExpression" ∧ valueType ≠ "StringLiteral" ∧
        valueType ≠ "Identifier" then
      appendWarn r ("Option \x27" ++ optionName ++ "\x27 expects a pattern, got " ++ valueType)
    else r
  else if os.valueType = "string" then
    if valueType ≠ "StringLiteral" ∧ valueType ≠ "Identifier" then
      appendWarn r ("Option \x27" ++ optionName ++ "\x27 expects a string, got " ++ valueType)
    else r
  else r

/-- The conflict loop of `validateOptions`: one OPTION_CONFLICT error per
declared conflicting option already seen. -/
def conflictFold (cmdValue optionName : String) (conflicts used : List String)
    (r : ValidationResult) : ValidationResult :=
  conflicts.foldl
    (fun acc c =>
      if used.contains c then
        appendErr acc ⟨"Option \x27" ++ optionName ++ "\x27 conflicts with \x27" ++ c ++ "\x27",
          cmdValue, "OPTION_CONFLICT"⟩
      else acc)
    r

/-- `validateOptions`: scan the arguments; on a keyword node, resolve it
(unknown → warning, continue), check conflicts against options already
seen, record it, and when it takes a value consume the next argument as
that value (`i++` skip) or report MISSING_OPTION_VALUE at the end.  The
index-based Go loop is rendered as list recursion consuming one argument —
or two when a value is consumed. -/
def validateOptionsAux (cmdValue : String) (spec : CommandSpec) :
    List Expression → List String → ValidationResult → ValidationResult
  | [], _, r => r
  | arg :: rest, used, r =>
    if exprType arg = "KeywordExpression" then
      let optionName := strToUpper (exprString arg)
      match alookup spec.options optionName with
      | none =>
        validateOptionsAux cmdValue spec rest used
          (appendWarn r ("Unknown option \x27" ++ optionName ++ "\x27 for command " ++ cmdValue))
      | some os =>
        let r1 := conflictFold cmdValue optionName os.conflicts used r
        let used1 := used ++ [optionName]
        if os.hasValue then
          match rest with
          | [] =>
            appendErr r1 ⟨"Option \x27" ++ optionName ++ "\x27 requires a value",
              cmdValue, "MISSING_OPTION_VALUE"⟩
          | v :: rest2 =>
            validateOptionsAux cmdValue spec rest2 used1 (validateOptionValue optionName os v r1)
        else validateOptionsAux cmdValue spec rest used1 r1
    else validateOptionsAux cmdValue spec rest used r

/-- The `CommandInfo` entries `ValidateCommand` records at the end. -/
def commandInfoFor (commandName : String) (spec : CommandSpec)
    (args : List Expression) : List (String × InfoValue) :=
  [("name", .str commandName), ("description", .str spec.description),
   ("has_key", .flag (decide (spec.keyPosition ≥ 0)))] ++
  (if spec.keyPosition ≥ 0 ∧ spec.keyPosition < (args.length : Int) then
    match args.get? spec.keyPosition.toNat with
    | some a => [("key", .str (exprString a))]
    | none => []
  else [])

/-- `ValidateCommand`: unknown command short-circuits; otherwise the
argument-count checks, the positional type check, the option scan, and
finally the `CommandInfo` assembly. -/
def validateCommand (cmd : RedisCommand) : ValidationResult :=
  let commandName := strToUpper cmd.command
  match lookupCommand commandName with
  | none =>
    ⟨false,
     [⟨"Unknown command: " ++ commandName, commandName, "UNKNOWN_COMMAND"⟩],
     [], []⟩
  | some spec =>
    let r0 : ValidationResult := ⟨true, [], [], []⟩
    let argCount : Int := cmd.arguments.length
    let r1 :=
      if argCount < spec.minArgs then
        appendErr r0 ⟨"Too few arguments. Expected at least " ++ toString spec.minArgs ++
          ", got " ++ toString argCount, commandName, "INSUFFICIENT_ARGS"⟩
      else r0
    let r2 :=
      if spec.maxArgs ≠ -1 ∧ argCount > spec.maxArgs then
        appendErr r1 ⟨"Too many arguments. Expected at most " ++ toString spec.maxArgs ++
          ", got " ++ toString argCount, commandName, "EXCESSIVE_ARGS"⟩
      else r1
    let r3 := validateArgumentTypesAux cmd.command cmd.arguments spec.valueTypes 0 r2
    let r4 := validateOptionsAux cmd.command spec cmd.arguments [] r3
    { r4 with commandInfo := r4.commandInfo ++ commandInfoFor commandName spec cmd.arguments }

/-- The conflict set an option declares in a command's specification
(empty when the command or the option is unknown). -/
def declaredConflicts (cmd opt : String) : List String :=
  match lookupCommand cmd with
  | some spec =>
    match alookup spec.options opt with
    | some os => os.conflicts
    | none => []
  | none => []

/-! ## Specification-side definitions

These follow the SPEC's wording (not the code) and exist to be compared
with the embedded code in refinement-style theorems. -/

/-- The result contains some error of the given kind. -/
def hasErrorType (r : ValidationResult) (t : String) : Prop :=
  ∃ e ∈ r.errors, e.etype = t

instance (r : ValidationResult) (t : String) : Decidable (hasErrorType r t) :=
  inferInstanceAs (Decidable (∃ e ∈ r.errors, e.etype = t))

/-- Modelled from the spec's wording of claim C6: the node kinds each value
category accepts — `key` accepts identifier, string or pattern; `field` and
`member` accept identifier or string; `value` accepts anything; `score`
accepts integer or float; `cursor`, `start` and `stop` accept only an
integer.  Categories outside this enumeration (none are declared in the
table) restrict nothing. -/
def specAccepts (category nodeType : String) : Bool :=
  if category = "key" then
    nodeType ∈ ["Identifier", "StringLiteral", "PatternExpression"]
  else if category = "field" ∨ category = "member" then
    nodeType ∈ ["Identifier", "StringLiteral"]
  else if category = "value" then true
  else if category = "score" then
    nodeType ∈ ["IntegerLiteral", "FloatLiteral"]
  else if category = "cursor" ∨ category = "start" ∨ category = "stop" then
    nodeType = "IntegerLiteral"
  else true

/-- The message text of the TYPE_MISMATCH error for 0-based index `i`,
category `category` and actual node type `actualType` (shared between the
code-side switch and the specification-side characterization; the message
wording is not itself under dispute in any claim). -/
def mismatchMessage (i : Nat) (category actualType : String) : String :=
  if category = "key" then
    "Argument " ++ toString (i + 1) ++ " should be a key (identifier or string), got " ++
      actualType
  else if category = "field" then
    "Argument " ++ toString (i + 1) ++ " should be a field name, got " ++ actualType
  else if category = "score" then
    "Argument " ++ toString (i + 1) ++ " should be a numeric score, got " ++ actualType
  else if category = "member" then
    "Argument " ++ toString (i + 1) ++ " should be a member name, got " ++ actualType
  else if category = "cursor" then
    "Argument " ++ toString (i + 1) ++ " should be a cursor (integer), got " ++ actualType
  else
    "Argument " ++ toString (i + 1) ++ " should be an index (integer), got " ++ actualType

/-- Modelled from the spec's wording of claim C6: the full list of
TYPE_MISMATCH errors a command should produce — one per argument position
that both has a declared category and fails `specAccepts`, positions beyond
the declared list never checked. -/
def specTypeErrors (cmdName : String) : List Expression → List String → Nat →
    List SemanticError
  | [], _, _ => []
  | _, [], _ => []
  | arg :: args, cat :: cats, i =>
    (if specAccepts cat (exprType arg) then []
     else [⟨mismatchMessage i cat (exprType arg), cmdName, "TYPE_MISMATCH"⟩]) ++
    specTypeErrors cmdName args cats (i + 1)

/-- The 9 reserved keyword spellings. -/
def kwNames : List String := keywords.map Prod.fst

/-- The 9 keyword token kinds. -/
def isKeywordType (t : TokenType) : Bool :=
  t ∈ ([.EX, .PX, .NX, .XX, .WITHSCORES, .LIMIT, .COUNT, .MATCH, .TYPE] : List TokenType)

/-- The keyword-option values occurring anywhere in an expression
(keyword nodes can also sit inside a range expression). -/
def kwValues : Expression → List String
  | .keywordExpr v => [v]
  | .rangeExpr a b => kwValues a ++ kwValues b
  | _ => []

/-- Every keyword-kinded token in the list upper-cases into the reserved
spelling table. -/
def goodToks (s : List Token) : Prop :=
  ∀ t ∈ s, isKeywordType t.type = true → strToUpper t.literal ∈ kwNames

/-- The shape `readIdentifier` consumes whole: nonempty, every character an
identifier character, and starting with a letter. -/
def identShape (w : String) : Prop :=
  w.data ≠ [] ∧ (∀ c ∈ w.data, isIdentChar c = true) ∧ isLetter (w.data.headD 'a') = true

/-! ## Helper lemmas: result-threading shapes of the validator phases -/

theorem typeCheckOne_spec (n : String) (i : Nat) (cat t : String) :
    typeCheckOne n i cat t =
      if specAccepts cat t then none
      else some ⟨mismatchMessage i cat t, n, "TYPE_MISMATCH"⟩ := by
  unfold typeCheckOne specAccepts mismatchMessage
  split_ifs <;> simp_all

theorem validateArgumentTypesAux_errors (n : String) :
    ∀ (args : List Expression) (cats : List String) (i : Nat) (r : ValidationResult),
      (validateArgumentTypesAux n args cats i r).errors =
        r.errors ++ specTypeErrors n args cats i := by
  intro args
  induction args with
  | nil => intro cats i r; cases cats <;> simp [validateArgumentTypesAux, specTypeErrors]
  | cons a args ih =>
    intro cats i r
    cases cats with
    | nil => simp [validateArgumentTypesAux, specTypeErrors]
    | cons c cats =>
      simp only [validateArgumentTypesAux, specTypeErrors, typeCheckOne_spec]
      by_cases h : specAccepts c (exprType a) = true
      · simp [h, ih]
      · simp [h, ih, appendErr]

theorem validateArgumentTypesAux_warnings (n : String) :
    ∀ (args : List Expression) (cats : List String) (i : Nat) (r : ValidationResult),
      (validateArgumentTypesAux n args cats i r).warnings = r.warnings := by
  intro args
  induction args with
  | nil => intro cats i r; cases cats <;> simp [validateArgumentTypesAux]
  | cons a args ih =>
    intro cats i r
    cases cats with
    | nil => simp [validateArgumentTypesAux]
    | cons c cats =>
      simp only [validateArgumentTypesAux]
      cases typeCheckOne n i c (exprType a) <;> simp [ih, appendErr]

theorem validateArgumentTypesAux_commandInfo (n : String) :
    ∀ (args : List Expression) (cats : List String) (i : Nat) (r : ValidationResult),
      (validateArgumentTypesAux n args cats i r).commandInfo = r.commandInfo := by
  intro args
  induction args with
  | nil => intro cats i r; cases cats <;> simp [validateArgumentTypesAux]
  | cons a args ih =>
    intro cats i r
    cases cats with
    | nil => simp [validateArgumentTypesAux]
    | cons c cats =>
      simp only [validateArgumentTypesAux]
      cases typeCheckOne n i c (exprType a) <;> simp [ih, appendErr]

theorem specTypeErrors_etype (n : String) :
    ∀ (args : List Expression) (cats : List String) (i : Nat),
      ∀ e ∈ specTypeErrors n args cats i, e.etype = "TYPE_MISMATCH" := by
  intro args
  induction args with
  | nil => intro cats i; cases cats <;> simp [specTypeErrors]
  | cons a args ih =>
    intro cats i
    cases cats with
    | nil => simp [specTypeErrors]
    | cons c cats =>
      intro e he
      simp only [specTypeErrors, List.mem_append] at he
      rcases he with he | he
      · by_cases h : specAccepts c (exprType a) = true <;> simp [h] at he
        simp [he]
      · exact ih cats (i + 1) e he

/-- The OPTION_CONFLICT error text for one conflicting pair. -/
def conflictError (cmdValue optionName conflict : String) : SemanticError :=
  ⟨"Option \x27" ++ optionName ++ "\x27 conflicts with \x27" ++ conflict ++ "\x27",
   cmdValue, "OPTION_CONFLICT"⟩

theorem conflictFold_cons (v n c : String) (cs used : List String)
    (r : ValidationResult) :
    conflictFold v n (c :: cs) used r =
      conflictFold v n cs used
        (if used.contains c then appendErr r (conflictError v n c) else r) := rfl

theorem conflictFold_spec (v n : String) :
    ∀ (cs used : List String) (r : ValidationResult),
      (conflictFold v n cs used r).errors =
        r.errors ++ (cs.filter (fun c => used.contains c)).map (conflictError v n) ∧
      (conflictFold v n cs used r).warnings = r.warnings ∧
      (conflictFold v n cs used r).commandInfo = r.commandInfo := by
  intro cs
  induction cs with
  | nil => intro used r; simp [conflictFold]
  | cons c cs ih =>
    intro used r
    rw [conflictFold_cons]
    by_cases h : used.contains c = true
    · rw [if_pos h]
      rcases ih used (appendErr r (conflictError v n c)) with ⟨h1, h2, h3⟩
      refine ⟨?_, ?_, ?_⟩
      · rw [h1, List.filter_cons, if_pos (by simpa using h)]
        simp [appendErr]
      · rw [h2]; simp [appendErr]
      · rw [h3]; simp [appendErr]
    · rw [if_neg h]
      rcases ih used r with ⟨h1, h2, h3⟩
      refine ⟨?_, ?_, ?_⟩
      · rw [h1, List.filter_cons, if_neg (by simpa using h)]
      · exact h2
      · exact h3

theorem validateOptionValue_shape (optionName : String) (os : OptionSpec)
    (value : Expression) (r : ValidationResult) :
    ∃ es ws,
      (validateOptionValue optionName os value r).errors = r.errors ++ es ∧
      (validateOptionValue optionName os value r).warnings = r.warnings ++ ws ∧
      (validateOptionValue optionName os value r).commandInfo = r.commandInfo ∧
      ∀ e ∈ es,
        (e.etype = "OPTION_TYPE_MISMATCH" ∨ e.etype = "INVALID_VALUE_RANGE") ∧
        e.command = infoName r.commandInfo := by
  unfold validateOptionValue
  by_cases h1 : os.valueType = "integer"
  · rw [if_pos h1]
    by_cases h2 : exprType value = "IntegerLiteral"
    · rw [if_neg (not_not_intro h2)]
      cases value with
      | integerLit v =>
        by_cases hp : (optionName = "EX" ∨ optionName = "PX") ∧ v ≤ 0
        · refine ⟨[⟨"Expiration time must be positive, got " ++ toString v,
            infoName r.commandInfo, "INVALID_VALUE_RANGE"⟩], [], ?_, ?_, ?_, ?_⟩ <;>
            simp [hp, appendErr]
        · refine ⟨[], [], ?_, ?_, ?_, ?_⟩ <;> simp [hp]
      | identifier v => simp [exprType] at h2
      | stringLit v => simp [exprType] at h2
      | floatLit v => simp [exprType] at h2
      | keywordExpr v => simp [exprType] at h2
      | patternExpr v => simp [exprType] at h2
      | rangeExpr a b => simp [exprType] at h2
      | nilNode ty => exact ⟨[], [], by simp, by simp, by simp, by simp⟩
    · rw [if_pos h2]
      refine ⟨[⟨"Option \x27" ++ optionName ++ "\x27 expects an integer value, got " ++
        exprType value, infoName r.commandInfo, "OPTION_TYPE_MISMATCH"⟩], [],
        ?_, ?_, ?_, ?_⟩ <;> simp [appendErr]
  · rw [if_neg h1]
    by_cases h3 : os.valueType = "pattern"
    · rw [if_pos h3]
      by_cases h4 : exprType value ≠ "PatternExpression" ∧
          exprType value ≠ "StringLiteral" ∧ exprType value ≠ "Identifier"
      · rw [if_pos h4]
        refine ⟨[], ["Option \x27" ++ optionName ++ "\x27 expects a pattern, got " ++
          exprType value], ?_, ?_, ?_, ?_⟩ <;> simp [appendWarn]
      · rw [if_neg h4]
        exact ⟨[], [], by simp, by simp, by simp, by simp⟩
    · rw [if_neg h3]
      by_cases h5 : os.valueType = "string"
      · rw [if_pos h5]
        by_cases h6 : exprType value ≠ "StringLiteral" ∧ exprType value ≠ "Identifier"
        · rw [if_pos h6]
          refine ⟨[], ["Option \x27" ++ optionName ++ "\x27 expects a string, got " ++
            exprType value], ?_, ?_, ?_, ?_⟩ <;> simp [appendWarn]
        · rw [if_neg h6]
          exact ⟨[], [], by simp, by simp, by simp, by simp⟩
      · rw [if_neg h5]
        exact ⟨[], [], by simp, by simp, by simp, by simp⟩

theorem validateOptionsAux_shape (n : String) (spec : CommandSpec) :
    ∀ (k : Nat) (l : List Expression) (used : List String) (r : ValidationResult),
      l.length ≤ k →
      ∃ es ws,
        (validateOptionsAux n spec l used r).errors = r.errors ++ es ∧
        (validateOptionsAux n spec l used r).warnings = r.warnings ++ ws ∧
        (validateOptionsAux n spec l used r).commandInfo = r.commandInfo ∧
        ∀ e ∈ es,
          (e.etype = "OPTION_CONFLICT" ∨ e.etype = "MISSING_OPTION_VALUE" ∨
            e.etype = "OPTION_TYPE_MISMATCH" ∨ e.etype = "INVALID_VALUE_RANGE") ∧
          ((e.etype = "OPTION_TYPE_MISMATCH" ∨ e.etype = "INVALID_VALUE_RANGE") →
            e.command = infoName r.commandInfo) := by
  intro k
  induction k with
  | zero =>
    intro l used r hl
    have : l = [] := by cases l <;> simp_all
    subst this
    exact ⟨[], [], by simp [validateOptionsAux], by simp [validateOptionsAux],
      by simp [validateOptionsAux], by simp⟩
  | succ k ih =>
    intro l used r hl
    cases l with
    | nil =>
      exact ⟨[], [], by simp [validateOptionsAux], by simp [validateOptionsAux],
        by simp [validateOptionsAux], by simp⟩
    | cons arg rest =>
      by_cases hkw : exprType arg = "KeywordExpression"
      · rcases hopt : alookup spec.options (strToUpper (exprString arg)) with _ | os
        · -- unknown option: warning, continue with the rest
          have step : validateOptionsAux n spec (arg :: rest) used r =
              validateOptionsAux n spec rest used
                (appendWarn r ("Unknown option \x27" ++ strToUpper (exprString arg) ++
                  "\x27 for command " ++ n)) := by
            simp [validateOptionsAux, hkw, hopt]
          obtain ⟨es, ws, h1, h2, h3, h4⟩ := ih rest used
            (appendWarn r ("Unknown option \x27" ++ strToUpper (exprString arg) ++
              "\x27 for command " ++ n))
            (by simpa using Nat.le_of_succ_le_succ hl)
          refine ⟨es, ("Unknown option \x27" ++ strToUpper (exprString arg) ++
              "\x27 for command " ++ n) :: ws, ?_, ?_, ?_, ?_⟩
          · rw [step, h1]; simp [appendWarn]
          · rw [step, h2]; simp [appendWarn]
          · rw [step, h3]; simp [appendWarn]
          · simpa [appendWarn] using h4
        · -- known option
          obtain ⟨hc1, hc2, hc3⟩ :=
            conflictFold_spec n (strToUpper (exprString arg)) os.conflicts used r
          have hcmem : ∀ e ∈ (os.conflicts.filter (fun c => used.contains c)).map
              (conflictError n (strToUpper (exprString arg))),
              (e.etype = "OPTION_CONFLICT" ∨ e.etype = "MISSING_OPTION_VALUE" ∨
                e.etype = "OPTION_TYPE_MISMATCH" ∨ e.etype = "INVALID_VALUE_RANGE") ∧
              ((e.etype = "OPTION_TYPE_MISMATCH" ∨ e.etype = "INVALID_VALUE_RANGE") →
                e.command = infoName r.commandInfo) := by
            intro e he
            simp only [List.mem_map] at he
            obtain ⟨c, _, rfl⟩ := he
            exact ⟨Or.inl rfl, by simp [conflictError]⟩
          by_cases hv : os.hasValue = true
          · cases rest with
            | nil =>
              have step : validateOptionsAux n spec [arg] used r =
                  appendErr (conflictFold n (strToUpper (exprString arg)) os.conflicts used r)
                    ⟨"Option \x27" ++ strToUpper (exprString arg) ++
                      "\x27 requires a value", n, "MISSING_OPTION_VALUE"⟩ := by
                simp [validateOptionsAux, hkw, hopt, hv]
              refine ⟨(os.conflicts.filter (fun c => used.contains c)).map
                  (conflictError n (strToUpper (exprString arg))) ++
                  [⟨"Option \x27" ++ strToUpper (exprString arg) ++
                    "\x27 requires a value", n, "MISSING_OPTION_VALUE"⟩], [], ?_, ?_, ?_, ?_⟩
              · rw [step]; simp [appendErr, hc1]
              · rw [step]; simp [appendErr, hc2]
              · rw [step]; simp [appendErr, hc3]
              · intro e he
                simp only [List.mem_append, List.mem_singleton] at he
                rcases he with he | rfl
                · exact hcmem e he
                · exact ⟨Or.inr (Or.inl rfl), by simp⟩
            | cons v rest2 =>
              obtain ⟨es0, ws0, hv1, hv2, hv3, hv4⟩ :=
                validateOptionValue_shape (strToUpper (exprString arg)) os v
                  (conflictFold n (strToUpper (exprString arg)) os.conflicts used r)
              have step : validateOptionsAux n spec (arg :: v :: rest2) used r =
                  validateOptionsAux n spec rest2 (used ++ [strToUpper (exprString arg)])
                    (validateOptionValue (strToUpper (exprString arg)) os v
                      (conflictFold n (strToUpper (exprString arg)) os.conflicts used r)) := by
                simp [validateOptionsAux, hkw, hopt, hv]
              obtain ⟨es, ws, h1, h2, h3, h4⟩ := ih rest2 (used ++ [strToUpper (exprString arg)])
                (validateOptionValue (strToUpper (exprString arg)) os v
                  (conflictFold n (strToUpper (exprString arg)) os.conflicts used r))
                (by simp at hl ⊢; omega)
              refine ⟨(os.conflicts.filter (fun c => used.contains c)).map
                  (conflictError n (strToUpper (exprString arg))) ++ es0 ++ es,
                  ws0 ++ ws, ?_, ?_, ?_, ?_⟩
              · rw [step, h1, hv1, hc1]; simp
              · rw [step, h2, hv2, hc2]; simp
              · rw [step, h3, hv3, hc3]
              · intro e he
                simp only [List.mem_append] at he
                rcases he with (he | he) | he
                · exact hcmem e he
                · have := hv4 e he
                  refine ⟨Or.inr (Or.inr this.1), fun _ => ?_⟩
                  rw [this.2, hc3]
                · have := h4 e he
                  refine ⟨this.1, fun h => ?_⟩
                  rw [this.2 h, hv3, hc3]
          · have step : validateOptionsAux n spec (arg :: rest) used r =
                validateOptionsAux n spec rest (used ++ [strToUpper (exprString arg)])
                  (conflictFold n (strToUpper (exprString arg)) os.conflicts used r) := by
              simp [validateOptionsAux, hkw, hopt, hv]
            obtain ⟨es, ws, h1, h2, h3, h4⟩ := ih rest (used ++ [strToUpper (exprString arg)])
              (conflictFold n (strToUpper (exprString arg)) os.conflicts used r)
              (by simpa using Nat.le_of_succ_le_succ hl)
            refine ⟨(os.conflicts.filter (fun c => used.contains c)).map
                (conflictError n (strToUpper (exprString arg))) ++ es, ws, ?_, ?_, ?_, ?_⟩
            · rw [step, h1, hc1]; simp
            · rw [step, h2, hc2]
            · rw [step, h3, hc3]
            · intro e he
              simp only [List.mem_append] at he
              rcases he with he | he
              · exact hcmem e he
              · have := h4 e he
                refine ⟨this.1, fun h => ?_⟩
                rw [this.2 h, hc3]
      · have step : validateOptionsAux n spec (arg :: rest) used r =
            validateOptionsAux n spec rest used r := by
          simp [validateOptionsAux, hkw]
        obtain ⟨es, ws, h1, h2, h3, h4⟩ := ih rest used r
          (by simpa using Nat.le_of_succ_le_succ hl)
        exact ⟨es, ws, by rw [step, h1], by rw [step, h2], by rw [step, h3], h4⟩

/-- The INSUFFICIENT_ARGS error a command would get. -/
def insufficientErr (c : RedisCommand) (spec : CommandSpec) : SemanticError :=
  ⟨"Too few arguments. Expected at least " ++ toString spec.minArgs ++ ", got " ++
    toString (c.arguments.length : Int), strToUpper c.command, "INSUFFICIENT_ARGS"⟩

/-- The EXCESSIVE_ARGS error a command would get. -/
def excessiveErr (c : RedisCommand) (spec : CommandSpec) : SemanticError :=
  ⟨"Too many arguments. Expected at most " ++ toString spec.maxArgs ++ ", got " ++
    toString (c.arguments.length : Int), strToUpper c.command, "EXCESSIVE_ARGS"⟩

/-- Full decomposition of a known command's error list: the two possible
argument-count errors, then the TYPE_MISMATCH errors, then the option-scan
errors, whose kinds are confined to the four option error kinds and whose
OPTION_TYPE_MISMATCH / INVALID_VALUE_RANGE entries carry command name
"unknown" (the scan runs before `CommandInfo` is populated). -/
theorem afterCount_shape (c : RedisCommand) (spec : CommandSpec)
    (r2 : ValidationResult) (hinfo : r2.commandInfo = []) :
    ∃ optErrs,
      (validateOptionsAux c.command spec c.arguments []
        (validateArgumentTypesAux c.command c.arguments spec.valueTypes 0 r2)).errors =
        r2.errors ++ specTypeErrors c.command c.arguments spec.valueTypes 0 ++ optErrs ∧
      ∀ e ∈ optErrs,
        (e.etype = "OPTION_CONFLICT" ∨ e.etype = "MISSING_OPTION_VALUE" ∨
          e.etype = "OPTION_TYPE_MISMATCH" ∨ e.etype = "INVALID_VALUE_RANGE") ∧
        ((e.etype = "OPTION_TYPE_MISMATCH" ∨ e.etype = "INVALID_VALUE_RANGE") →
          e.command = "unknown") := by
  obtain ⟨es, ws, ho1, ho2, ho3, ho4⟩ :=
    validateOptionsAux_shape c.command spec c.arguments.length c.arguments []
      (validateArgumentTypesAux c.command c.arguments spec.valueTypes 0 r2) le_rfl
  refine ⟨es, ?_, ?_⟩
  · rw [ho1, validateArgumentTypesAux_errors, List.append_assoc]
  · intro e he
    have h := ho4 e he
    refine ⟨h.1, fun hh => ?_⟩
    have := h.2 hh
    rw [this, validateArgumentTypesAux_commandInfo, hinfo]
    rfl

theorem validateCommand_errors_decomp (c : RedisCommand) (spec : CommandSpec)
    (hl : lookupCommand (strToUpper c.command) = some spec) :
    ∃ optErrs,
      (validateCommand c).errors =
        (if (c.arguments.length : Int) < spec.minArgs then [insufficientErr c spec] else []) ++
        (if spec.maxArgs ≠ -1 ∧ (c.arguments.length : Int) > spec.maxArgs then
          [excessiveErr c spec] else []) ++
        specTypeErrors c.command c.arguments spec.valueTypes 0 ++ optErrs ∧
      ∀ e ∈ optErrs,
        (e.etype = "OPTION_CONFLICT" ∨ e.etype = "MISSING_OPTION_VALUE" ∨
          e.etype = "OPTION_TYPE_MISMATCH" ∨ e.etype = "INVALID_VALUE_RANGE") ∧
        ((e.etype = "OPTION_TYPE_MISMATCH" ∨ e.etype = "INVALID_VALUE_RANGE") →
          e.command = "unknown") := by
  by_cases hmin : (c.arguments.length : Int) < spec.minArgs <;>
    by_cases hmax : spec.maxArgs ≠ -1 ∧ (c.arguments.length : Int) > spec.maxArgs
  · obtain ⟨optErrs, h1, h2⟩ := afterCount_shape c spec
      (appendErr (appendErr ⟨true, [], [], []⟩ (insufficientErr c spec)) (excessiveErr c spec))
      (by simp [appendErr])
    refine ⟨optErrs, ?_, h2⟩
    simp only [validateCommand, hl, if_pos hmin, if_pos hmax, insufficientErr, excessiveErr]
    simp only [insufficientErr, excessiveErr, appendErr] at h1
    simpa using h1
  · obtain ⟨optErrs, h1, h2⟩ := afterCount_shape c spec
      (appendErr ⟨true, [], [], []⟩ (insufficientErr c spec)) (by simp [appendErr])
    refine ⟨optErrs, ?_, h2⟩
    simp only [validateCommand, hl, if_pos hmin, if_neg hmax, insufficientErr, excessiveErr]
    simp only [insufficientErr, appendErr] at h1
    simpa using h1
  · obtain ⟨optErrs, h1, h2⟩ := afterCount_shape c spec
      (appendErr ⟨true, [], [], []⟩ (excessiveErr c spec)) (by simp [appendErr])
    refine ⟨optErrs, ?_, h2⟩
    simp only [validateCommand, hl, if_neg hmin, if_pos hmax, insufficientErr, excessiveErr]
    simp only [excessiveErr, appendErr] at h1
    simpa using h1
  · obtain ⟨optErrs, h1, h2⟩ := afterCount_shape c spec
      (⟨true, [], [], []⟩ : ValidationResult) rfl
    refine ⟨optErrs, ?_, h2⟩
    simp only [validateCommand, hl, if_neg hmin, if_neg hmax]
    simp only [appendErr] at h1
    simpa using h1

/-! ## Helper lemmas: lookup membership, scan prefix skip, string facts -/

theorem alookup_mem_snd {α : Type} :
    ∀ (l : List (String × α)) (k : String) (v : α),
      alookup l k = some v → v ∈ l.map Prod.snd := by
  intro l
  induction l with
  | nil => intro k v h; simp [alookup] at h
  | cons p rest ih =>
    intro k v h
    simp only [alookup] at h
    split_ifs at h with hk
    · cases h
      simp
    · simp only [List.map_cons, List.mem_cons]
      exact Or.inr (ih k v h)

theorem lookupCommand_bounds (name : String) (spec : CommandSpec)
    (h : lookupCommand name = some spec) :
    spec.maxArgs = -1 ∨ spec.minArgs ≤ spec.maxArgs := by
  have hm := alookup_mem_snd commandsTable name spec h
  simp only [commandsTable, List.map_cons, List.map_nil, List.mem_cons,
    List.not_mem_nil, or_false] at hm
  rcases hm with rfl | rfl | rfl | rfl | rfl | rfl | rfl | rfl <;> simp

theorem validateOptionsAux_skipNonKeywords (n : String) (spec : CommandSpec) :
    ∀ (xs l : List Expression) (used : List String) (r : ValidationResult),
      (∀ e ∈ xs, exprType e ≠ "KeywordExpression") →
      validateOptionsAux n spec (xs ++ l) used r = validateOptionsAux n spec l used r := by
  intro xs
  induction xs with
  | nil => intro l used r _; rfl
  | cons x xs ih =>
    intro l used r hx
    have hxk : exprType x ≠ "KeywordExpression" := hx x (by simp)
    have step : validateOptionsAux n spec ((x :: xs) ++ l) used r =
        validateOptionsAux n spec (xs ++ l) used r := by
      simp [validateOptionsAux, hxk]
    rw [step, ih l used r (fun e he => hx e (by simp [he]))]

/-! ## Claim C2 — argument-count boundaries -/

/-- C2: for every parsed command whose uppercase name is in the table:
exactly `minArgs` arguments is never INSUFFICIENT_ARGS; exactly `maxArgs`
(when bounded) is never EXCESSIVE_ARGS; `minArgs - 1` always is
INSUFFICIENT_ARGS; and no result carries both count errors at once. -/
theorem claim2_argcount_boundaries (c : RedisCommand) (spec : CommandSpec)
    (hl : lookupCommand (strToUpper c.command) = some spec) :
    ((c.arguments.length : Int) = spec.minArgs →
      ¬ hasErrorType (validateCommand c) "INSUFFICIENT_ARGS") ∧
    (spec.maxArgs ≠ -1 → (c.arguments.length : Int) = spec.maxArgs →
      ¬ hasErrorType (validateCommand c) "EXCESSIVE_ARGS") ∧
    ((c.arguments.length : Int) = spec.minArgs - 1 →
      hasErrorType (validateCommand c) "INSUFFICIENT_ARGS") ∧
    ¬ (hasErrorType (validateCommand c) "INSUFFICIENT_ARGS" ∧
       hasErrorType (validateCommand c) "EXCESSIVE_ARGS") := by
  obtain ⟨optErrs, hdec, hopt⟩ := validateCommand_errors_decomp c spec hl
  have hmem : ∀ e ∈ (validateCommand c).errors,
      e.etype = "INSUFFICIENT_ARGS" →
      (c.arguments.length : Int) < spec.minArgs := by
    intro e he ht
    rw [hdec] at he
    simp only [List.mem_append] at he
    rcases he with ((he | he) | he) | he
    · split_ifs at he with h
      · exact h
      · simp at he
    · split_ifs at he with h
      · simp only [List.mem_singleton] at he
        rw [he] at ht
        simp [excessiveErr] at ht
      · simp at he
    · have := specTypeErrors_etype c.command c.arguments spec.valueTypes 0 e he
      rw [this] at ht
      exact absurd ht (by decide)
    · rcases (hopt e he).1 with h | h | h | h <;> rw [h] at ht <;>
        exact absurd ht (by decide)
  have hmemx : ∀ e ∈ (validateCommand c).errors,
      e.etype = "EXCESSIVE_ARGS" →
      spec.maxArgs ≠ -1 ∧ (c.arguments.length : Int) > spec.maxArgs := by
    intro e he ht
    rw [hdec] at he
    simp only [List.mem_append] at he
    rcases he with ((he | he) | he) | he
    · split_ifs at he with h
      · simp only [List.mem_singleton] at he
        rw [he] at ht
        simp [insufficientErr] at ht
      · simp at he
    · split_ifs at he with h
      · exact h
      · simp at he
    · have := specTypeErrors_etype c.command c.arguments spec.valueTypes 0 e he
      rw [this] at ht
      exact absurd ht (by decide)
    · rcases (hopt e he).1 with h | h | h | h <;> rw [h] at ht <;>
        exact absurd ht (by decide)
  refine ⟨?_, ?_, ?_, ?_⟩
  · intro heq ⟨e, he, ht⟩
    have := hmem e he ht
    omega
  · intro _ heq ⟨e, he, ht⟩
    have := (hmemx e he ht).2
    omega
  · intro heq
    have hlt : (c.arguments.length : Int) < spec.minArgs := by omega
    refine ⟨insufficientErr c spec, ?_, rfl⟩
    rw [hdec]
    simp [hlt]
  · rintro ⟨⟨e1, he1, ht1⟩, ⟨e2, he2, ht2⟩⟩
    have h1 := hmem e1 he1 ht1
    have h2 := hmemx e2 he2 ht2
    rcases lookupCommand_bounds _ _ hl with h | h
    · exact h2.1 h
    · omega

/-- Witness for C2 at `GET` with zero arguments. -/
theorem claim2_argcount_boundaries_witness :
    hasErrorType (validateCommand ⟨"GET", []⟩) "INSUFFICIENT_ARGS" ∧
    ¬ (hasErrorType (validateCommand ⟨"GET", []⟩) "INSUFFICIENT_ARGS" ∧
       hasErrorType (validateCommand ⟨"GET", []⟩) "EXCESSIVE_ARGS") := by
  have h := claim2_argcount_boundaries ⟨"GET", []⟩
    ⟨"GET", 1, 1, 0, ["key"], [], "Get the value of a key"⟩ (by decide)
  exact ⟨h.2.2.1 (by decide), h.2.2.2⟩

/-! ## Claim C4 — unknown command short-circuits -/

/-- C4: an unknown command name yields `Valid = false` with exactly the one
UNKNOWN_COMMAND error, and no warnings, no command info, and no further
checks of any kind. -/
theorem claim4_unknown_command (c : RedisCommand)
    (h : lookupCommand (strToUpper c.command) = none) :
    validateCommand c =
      ⟨false, [⟨"Unknown command: " ++ strToUpper c.command, strToUpper c.command,
        "UNKNOWN_COMMAND"⟩], [], []⟩ := by
  simp [validateCommand, h]

/-- Witness for C4 at `UNKNOWN key`. -/
theorem claim4_unknown_command_witness :
    lookupCommand (strToUpper "UNKNOWN") = none ∧
    validateCommand ⟨"UNKNOWN", [.identifier "key"]⟩ =
      ⟨false, [⟨"Unknown command: UNKNOWN", "UNKNOWN", "UNKNOWN_COMMAND"⟩], [], []⟩ := by
  refine ⟨by decide, ?_⟩
  have h := claim4_unknown_command ⟨"UNKNOWN", [.identifier "key"]⟩ (by decide)
  simpa using h

/-! ## Claim C10 — option-value errors carry command name "unknown" -/

/-- C10: every OPTION_TYPE_MISMATCH or INVALID_VALUE_RANGE error produced by
validation carries the command-name field "unknown", because
`validateOptionValue` reads `CommandInfo["name"]`, which `ValidateCommand`
populates only after the option scan has finished. -/
theorem claim10_option_value_errors_unknown (c : RedisCommand)
    (e : SemanticError) (he : e ∈ (validateCommand c).errors)
    (ht : e.etype = "OPTION_TYPE_MISMATCH" ∨ e.etype = "INVALID_VALUE_RANGE") :
    e.command = "unknown" := by
  cases hl : lookupCommand (strToUpper c.command) with
  | none =>
    rw [validateCommand] at he
    rw [hl] at he
    simp only [List.mem_singleton] at he
    rw [he] at ht
    rcases ht with h | h <;> simp at h
  | some spec =>
    obtain ⟨optErrs, hdec, hopt⟩ := validateCommand_errors_decomp c spec hl
    rw [hdec] at he
    simp only [List.mem_append] at he
    rcases he with ((he | he) | he) | he
    · split_ifs at he with h
      · simp only [List.mem_singleton] at he
        rw [he] at ht
        rcases ht with h | h <;> simp [insufficientErr] at h
      · simp at he
    · split_ifs at he with h
      · simp only [List.mem_singleton] at he
        rw [he] at ht
        rcases ht with h | h <;> simp [excessiveErr] at h
      · simp at he
    · have h := specTypeErrors_etype c.command c.arguments spec.valueTypes 0 e he
      rw [h] at ht
      rcases ht with h | h <;> exact absurd h (by decide)
    · exact (hopt e he).2 ht

/-- Witness for C10 at `SET k v EX -60`. -/
theorem claim10_option_value_errors_unknown_witness :
    (⟨"Expiration time must be positive, got -60", "unknown", "INVALID_VALUE_RANGE"⟩ :
      SemanticError) ∈
      (validateCommand ⟨"SET", [.identifier "k", .identifier "v",
        .keywordExpr "EX", .integerLit (-60)]⟩).errors ∧
    (⟨"Expiration time must be positive, got -60", "unknown", "INVALID_VALUE_RANGE"⟩ :
      SemanticError).command = "unknown" := by
  refine ⟨by decide, ?_⟩
  exact claim10_option_value_errors_unknown
    ⟨"SET", [.identifier "k", .identifier "v", .keywordExpr "EX", .integerLit (-60)]⟩
    ⟨"Expiration time must be positive, got -60", "unknown", "INVALID_VALUE_RANGE"⟩
    (by decide) (Or.inr rfl)

/-! ## Claim C6 — positional type checking -/

/-- C6: the TYPE_MISMATCH errors of a known command are exactly one per
argument index that has a declared value category and whose node kind the
category does not accept (per `specAccepts`, the claim's enumeration of
accepted kinds); checking continues past mismatches and never looks at
positions beyond the declared category list. -/
theorem claim6_positional_type_check (c : RedisCommand) (spec : CommandSpec)
    (hl : lookupCommand (strToUpper c.command) = some spec) :
    (validateCommand c).errors.filter (fun e => e.etype == "TYPE_MISMATCH") =
      specTypeErrors c.command c.arguments spec.valueTypes 0 := by
  obtain ⟨optErrs, hdec, hopt⟩ := validateCommand_errors_decomp c spec hl
  rw [hdec]
  simp only [List.filter_append]
  have h1 : ∀ (l : List SemanticError), (∀ e ∈ l, e.etype ≠ "TYPE_MISMATCH") →
      l.filter (fun e => e.etype == "TYPE_MISMATCH") = [] := by
    intro l hl'
    rw [List.filter_eq_nil_iff]
    intro e he
    simpa using hl' e he
  rw [h1 _ (by
    intro e he
    split_ifs at he with h
    · simp only [List.mem_singleton] at he
      rw [he]
      simp [insufficientErr]
    · simp at he)]
  rw [h1 _ (by
    intro e he
    split_ifs at he with h
    · simp only [List.mem_singleton] at he
      rw [he]
      simp [excessiveErr]
    · simp at he)]
  rw [h1 optErrs (by
    intro e he
    rcases (hopt e he).1 with h | h | h | h <;> rw [h] <;> decide)]
  rw [List.filter_eq_self.mpr (by
    intro e he
    have := specTypeErrors_etype c.command c.arguments spec.valueTypes 0 e he
    simp [this])]
  simp

/-- Witness for C6 at `ZADD myset "invalid" m` (string where a score must
be an integer or float). -/
theorem claim6_positional_type_check_witness :
    (validateCommand ⟨"ZADD", [.identifier "myset", .stringLit "invalid",
        .identifier "m"]⟩).errors.filter (fun e => e.etype == "TYPE_MISMATCH") =
      [⟨"Argument 2 should be a numeric score, got StringLiteral", "ZADD",
        "TYPE_MISMATCH"⟩] := by
  have h := claim6_positional_type_check
    ⟨"ZADD", [.identifier "myset", .stringLit "invalid", .identifier "m"]⟩
    ⟨"ZADD", 3, -1, 0, ["key", "score", "member"],
      [("NX", ⟨false, "", "Only add new elements", ["XX"]⟩),
       ("XX", ⟨false, "", "Only update existing elements", ["NX"]⟩)],
      "Add one or more members to a sorted set"⟩ (by decide)
  rw [h]
  decide

/-! ## Helper lemmas: transferring option-scan facts to `validateCommand` -/

theorem validateCommand_errors_options (c : RedisCommand) (spec : CommandSpec)
    (hl : lookupCommand (strToUpper c.command) = some spec) :
    ∃ r3, (validateCommand c).errors =
      (validateOptionsAux c.command spec c.arguments [] r3).errors := by
  simp only [validateCommand, hl]
  exact ⟨_, rfl⟩

theorem validateCommand_warnings_options (c : RedisCommand) (spec : CommandSpec)
    (hl : lookupCommand (strToUpper c.command) = some spec) :
    ∃ r3, r3.warnings = [] ∧
      (validateCommand c).warnings =
        (validateOptionsAux c.command spec c.arguments [] r3).warnings := by
  simp only [validateCommand, hl]
  refine ⟨_, ?_, rfl⟩
  rw [validateArgumentTypesAux_warnings]
  split_ifs <;> simp [appendErr]

/-- One scan step on a recognized option `B` whose conflict set intersects
the already-seen options: an OPTION_CONFLICT error is emitted (whatever
`hasValue` and the remaining arguments are). -/
theorem optionsAux_conflict_mem (n : String) (spec : CommandSpec) (B : String)
    (osB : OptionSpec) (zs : List Expression) (used : List String)
    (r : ValidationResult)
    (hB : alookup spec.options (strToUpper B) = some osB)
    (hc : ∃ a ∈ osB.conflicts, used.contains a = true) :
    ∃ e ∈ (validateOptionsAux n spec (.keywordExpr B :: zs) used r).errors,
      e.etype = "OPTION_CONFLICT" := by
  obtain ⟨a, hamem, haused⟩ := hc
  obtain ⟨hc1, hc2, hc3⟩ := conflictFold_spec n (strToUpper B) osB.conflicts used r
  have hr1 : ∃ e ∈ (conflictFold n (strToUpper B) osB.conflicts used r).errors,
      e.etype = "OPTION_CONFLICT" := by
    refine ⟨conflictError n (strToUpper B) a, ?_, rfl⟩
    rw [hc1]
    simp only [List.mem_append, List.mem_map, List.mem_filter]
    exact Or.inr ⟨a, ⟨hamem, by simpa using haused⟩, rfl⟩
  by_cases hv : osB.hasValue = true
  · cases zs with
    | nil =>
      have step : validateOptionsAux n spec [.keywordExpr B] used r =
          appendErr (conflictFold n (strToUpper B) osB.conflicts used r)
            ⟨"Option \x27" ++ strToUpper B ++ "\x27 requires a value", n,
              "MISSING_OPTION_VALUE"⟩ := by
        simp [validateOptionsAux, exprType, exprString, hB, hv]
      rw [step]
      obtain ⟨e, he, ht⟩ := hr1
      exact ⟨e, by simp [appendErr, he], ht⟩
    | cons v zs2 =>
      have step : validateOptionsAux n spec (.keywordExpr B :: v :: zs2) used r =
          validateOptionsAux n spec zs2 (used ++ [strToUpper B])
            (validateOptionValue (strToUpper B) osB v
              (conflictFold n (strToUpper B) osB.conflicts used r)) := by
        simp [validateOptionsAux, exprType, exprString, hB, hv]
      rw [step]
      obtain ⟨es0, ws0, hv1, hv2, hv3, hv4⟩ :=
        validateOptionValue_shape (strToUpper B) osB v
          (conflictFold n (strToUpper B) osB.conflicts used r)
      obtain ⟨es, ws, h1, h2, h3, h4⟩ :=
        validateOptionsAux_shape n spec zs2.length zs2 (used ++ [strToUpper B])
          (validateOptionValue (strToUpper B) osB v
            (conflictFold n (strToUpper B) osB.conflicts used r)) le_rfl
      obtain ⟨e, he, ht⟩ := hr1
      refine ⟨e, ?_, ht⟩
      rw [h1, hv1]
      simp only [List.mem_append]
      exact Or.inl (Or.inl he)
  · have step : validateOptionsAux n spec (.keywordExpr B :: zs) used r =
        validateOptionsAux n spec zs (used ++ [strToUpper B])
          (conflictFold n (strToUpper B) osB.conflicts used r) := by
      simp [validateOptionsAux, exprType, exprString, hB, hv]
    rw [step]
    obtain ⟨es, ws, h1, h2, h3, h4⟩ :=
      validateOptionsAux_shape n spec zs.length zs (used ++ [strToUpper B])
        (conflictFold n (strToUpper B) osB.conflicts used r) le_rfl
    obtain ⟨e, he, ht⟩ := hr1
    refine ⟨e, ?_, ht⟩
    rw [h1]
    simp only [List.mem_append]
    exact Or.inl he

/-! ## Claim C3 — conflict detection (amended) -/

/-- C3 amended: for a mutually declared conflicting pair (A, B) of a known
command, OPTION_CONFLICT is produced in either ordering PROVIDED the scan
actually reaches both keywords as options — here guaranteed by A taking no
value and no other keyword argument standing before A or between A and B
(the original claim fails when one of the pair is consumed as the value of
a preceding value-taking option, see `claim3_counterexample`). -/
theorem claim3_amended_conflict_symmetry (c : RedisCommand) (spec : CommandSpec)
    (A B : String) (osA osB : OptionSpec)
    (hl : lookupCommand (strToUpper c.command) = some spec)
    (hA : alookup spec.options (strToUpper A) = some osA)
    (hB : alookup spec.options (strToUpper B) = some osB)
    (hBA : strToUpper A ∈ osB.conflicts)
    (_hAB : strToUpper B ∈ osA.conflicts)
    (hnoval : osA.hasValue = false)
    (xs ys zs : List Expression)
    (hargs : c.arguments = xs ++ .keywordExpr A :: (ys ++ .keywordExpr B :: zs))
    (hxs : ∀ e ∈ xs, exprType e ≠ "KeywordExpression")
    (hys : ∀ e ∈ ys, exprType e ≠ "KeywordExpression") :
    hasErrorType (validateCommand c) "OPTION_CONFLICT" := by
  obtain ⟨r3, herr⟩ := validateCommand_errors_options c spec hl
  rw [hargs] at herr
  rw [validateOptionsAux_skipNonKeywords c.command spec xs _ [] r3 hxs] at herr
  have stepA : validateOptionsAux c.command spec
      (.keywordExpr A :: (ys ++ .keywordExpr B :: zs)) [] r3 =
      validateOptionsAux c.command spec (ys ++ .keywordExpr B :: zs)
        ([] ++ [strToUpper A]) (conflictFold c.command (strToUpper A) osA.conflicts [] r3) := by
    simp [validateOptionsAux, exprType, exprString, hA, hnoval]
  rw [stepA, validateOptionsAux_skipNonKeywords c.command spec ys _ _ _ hys] at herr
  obtain ⟨e, he, ht⟩ := optionsAux_conflict_mem c.command spec B osB zs
    ([] ++ [strToUpper A]) (conflictFold c.command (strToUpper A) osA.conflicts [] r3)
    hB ⟨strToUpper A, hBA, by simp⟩
  exact ⟨e, by rw [herr]; exact he, ht⟩

/-- Witness for C3 amended: `SET k v NX XX` (and the reverse ordering is the
same theorem with A and B swapped). -/
theorem claim3_amended_conflict_symmetry_witness :
    hasErrorType (validateCommand ⟨"SET", [.identifier "k", .identifier "v",
      .keywordExpr "NX", .keywordExpr "XX"]⟩) "OPTION_CONFLICT" ∧
    hasErrorType (validateCommand ⟨"SET", [.identifier "k", .identifier "v",
      .keywordExpr "XX", .keywordExpr "NX"]⟩) "OPTION_CONFLICT" := by
  constructor
  · exact claim3_amended_conflict_symmetry
      ⟨"SET", [.identifier "k", .identifier "v", .keywordExpr "NX", .keywordExpr "XX"]⟩
      ⟨"SET", 2, -1, 0, ["key", "value"],
        [("EX", ⟨true, "integer", "Set expiry in seconds", []⟩),
         ("PX", ⟨true, "integer", "Set expiry in milliseconds", ["EX"]⟩),
         ("NX", ⟨false, "", "Only set if key doesn\x27t exist", ["XX"]⟩),
         ("XX", ⟨false, "", "Only set if key exists", ["NX"]⟩)],
        "Set the string value of a key"⟩
      "NX" "XX" ⟨false, "", "Only set if key doesn\x27t exist", ["XX"]⟩
      ⟨false, "", "Only set if key exists", ["NX"]⟩
      (by decide) (by decide) (by decide) (by decide) (by decide) rfl
      [.identifier "k", .identifier "v"] [] []
      rfl (by decide) (by decide)
  · exact claim3_amended_conflict_symmetry
      ⟨"SET", [.identifier "k", .identifier "v", .keywordExpr "XX", .keywordExpr "NX"]⟩
      ⟨"SET", 2, -1, 0, ["key", "value"],
        [("EX", ⟨true, "integer", "Set expiry in seconds", []⟩),
         ("PX", ⟨true, "integer", "Set expiry in milliseconds", ["EX"]⟩),
         ("NX", ⟨false, "", "Only set if key doesn\x27t exist", ["XX"]⟩),
         ("XX", ⟨false, "", "Only set if key exists", ["NX"]⟩)],
        "Set the string value of a key"⟩
      "XX" "NX" ⟨false, "", "Only set if key exists", ["NX"]⟩
      ⟨false, "", "Only set if key doesn\x27t exist", ["XX"]⟩
      (by decide) (by decide) (by decide) (by decide) (by decide) rfl
      [.identifier "k", .identifier "v"] [] []
      rfl (by decide) (by decide)

/-! ## Claim C5 — value-taking options -/

theorem string_ne_of_head (a b : String) (ha : a.data.head? = some 'U')
    (hb : b.data.head? = some 'O') : a ≠ b := by
  intro h
  rw [h, hb] at ha
  simp at ha

theorem validateOptionValue_expiry (O : String) (os : OptionSpec) (v : Int)
    (r : ValidationResult) (hint : os.valueType = "integer")
    (hp : (O = "EX" ∨ O = "PX") ∧ v ≤ 0) :
    validateOptionValue O os (.integerLit v) r =
      appendErr r ⟨"Expiration time must be positive, got " ++ toString v,
        infoName r.commandInfo, "INVALID_VALUE_RANGE"⟩ := by
  simp [validateOptionValue, hint, exprType, hp]

/-- C5: whenever the option scan reaches a keyword option declared with
`hasValue` (reaching guaranteed here by the absence of earlier keyword
arguments): as the last argument it yields MISSING_OPTION_VALUE; an
immediately following non-positive integer value for the time-duration
options EX/PX yields INVALID_VALUE_RANGE; and the value argument is
consumed by the scan, never treated as a free-standing keyword — in
particular an unknown keyword sitting in the value slot produces no
"Unknown option" warning. -/
theorem claim5_option_values (c : RedisCommand) (spec : CommandSpec)
    (O : String) (os : OptionSpec) (xs rest : List Expression)
    (hl : lookupCommand (strToUpper c.command) = some spec)
    (hargs : c.arguments = xs ++ .keywordExpr O :: rest)
    (hxs : ∀ e ∈ xs, exprType e ≠ "KeywordExpression")
    (hO : alookup spec.options (strToUpper O) = some os)
    (hv : os.hasValue = true) :
    (rest = [] → hasErrorType (validateCommand c) "MISSING_OPTION_VALUE") ∧
    (∀ (v : Int) (rest2 : List Expression), rest = .integerLit v :: rest2 →
      os.valueType = "integer" → (strToUpper O = "EX" ∨ strToUpper O = "PX") →
      v ≤ 0 → hasErrorType (validateCommand c) "INVALID_VALUE_RANGE") ∧
    (∀ B : String, rest = [.keywordExpr B] →
      alookup spec.options (strToUpper B) = none →
      ("Unknown option \x27" ++ strToUpper B ++ "\x27 for command " ++ c.command) ∉
        (validateCommand c).warnings) := by
  refine ⟨?_, ?_, ?_⟩
  · intro hrest
    subst hrest
    obtain ⟨r3, herr⟩ := validateCommand_errors_options c spec hl
    rw [hargs, validateOptionsAux_skipNonKeywords c.command spec xs _ [] r3 hxs] at herr
    have step : validateOptionsAux c.command spec [.keywordExpr O] [] r3 =
        appendErr (conflictFold c.command (strToUpper O) os.conflicts [] r3)
          ⟨"Option \x27" ++ strToUpper O ++ "\x27 requires a value", c.command,
            "MISSING_OPTION_VALUE"⟩ := by
      simp [validateOptionsAux, exprType, exprString, hO, hv]
    refine ⟨⟨"Option \x27" ++ strToUpper O ++ "\x27 requires a value", c.command,
      "MISSING_OPTION_VALUE"⟩, ?_, rfl⟩
    rw [herr, step]
    simp [appendErr]
  · intro v rest2 hrest hint hEX hv0
    subst hrest
    obtain ⟨r3, herr⟩ := validateCommand_errors_options c spec hl
    rw [hargs, validateOptionsAux_skipNonKeywords c.command spec xs _ [] r3 hxs] at herr
    have step : validateOptionsAux c.command spec
        (.keywordExpr O :: .integerLit v :: rest2) [] r3 =
        validateOptionsAux c.command spec rest2 ([] ++ [strToUpper O])
          (validateOptionValue (strToUpper O) os (.integerLit v)
            (conflictFold c.command (strToUpper O) os.conflicts [] r3)) := by
      simp [validateOptionsAux, exprType, exprString, hO, hv]
    rw [step] at herr
    rw [validateOptionValue_expiry (strToUpper O) os v _ hint ⟨hEX, hv0⟩] at herr
    obtain ⟨es, ws, h1, h2, h3, h4⟩ :=
      validateOptionsAux_shape c.command spec rest2.length rest2 ([] ++ [strToUpper O])
        (appendErr (conflictFold c.command (strToUpper O) os.conflicts [] r3)
          ⟨"Expiration time must be positive, got " ++ toString v,
            infoName (conflictFold c.command (strToUpper O) os.conflicts [] r3).commandInfo,
            "INVALID_VALUE_RANGE"⟩) le_rfl
    refine ⟨⟨"Expiration time must be positive, got " ++ toString v,
      infoName (conflictFold c.command (strToUpper O) os.conflicts [] r3).commandInfo,
      "INVALID_VALUE_RANGE"⟩, ?_, rfl⟩
    rw [herr, h1]
    simp [appendErr]
  · intro B hrest hBunk
    subst hrest
    obtain ⟨r3, hw0, hwarn⟩ := validateCommand_warnings_options c spec hl
    rw [hargs, validateOptionsAux_skipNonKeywords c.command spec xs _ [] r3 hxs] at hwarn
    have step : validateOptionsAux c.command spec
        [.keywordExpr O, .keywordExpr B] [] r3 =
        validateOptionValue (strToUpper O) os (.keywordExpr B)
          (conflictFold c.command (strToUpper O) os.conflicts [] r3) := by
      simp [validateOptionsAux, exprType, exprString, hO, hv]
    rw [step] at hwarn
    obtain ⟨hc1, hc2, hc3⟩ :=
      conflictFold_spec c.command (strToUpper O) os.conflicts [] r3
    have hr1w : (conflictFold c.command (strToUpper O) os.conflicts [] r3).warnings = [] := by
      rw [hc2, hw0]
    intro hmem
    rw [hwarn] at hmem
    by_cases h1 : os.valueType = "integer"
    · have : validateOptionValue (strToUpper O) os (.keywordExpr B)
          (conflictFold c.command (strToUpper O) os.conflicts [] r3) =
          appendErr (conflictFold c.command (strToUpper O) os.conflicts [] r3)
            ⟨"Option \x27" ++ strToUpper O ++ "\x27 expects an integer value, got " ++
              "KeywordExpression",
              infoName (conflictFold c.command (strToUpper O) os.conflicts [] r3).commandInfo,
              "OPTION_TYPE_MISMATCH"⟩ := by
        simp [validateOptionValue, h1, exprType]
      rw [this] at hmem
      simp only [appendErr] at hmem
      rw [hr1w] at hmem
      simp at hmem
    · by_cases h2 : os.valueType = "pattern"
      · have : validateOptionValue (strToUpper O) os (.keywordExpr B)
            (conflictFold c.command (strToUpper O) os.conflicts [] r3) =
            appendWarn (conflictFold c.command (strToUpper O) os.conflicts [] r3)
              ("Option \x27" ++ strToUpper O ++ "\x27 expects a pattern, got " ++
                "KeywordExpression") := by
          simp [validateOptionValue, h1, h2, exprType]
        rw [this] at hmem
        simp only [appendWarn] at hmem
        rw [hr1w] at hmem
        simp only [List.nil_append, List.mem_singleton] at hmem
        exact string_ne_of_head
          ("Unknown option \x27" ++ strToUpper B ++ "\x27 for command " ++ c.command)
          ("Option \x27" ++ strToUpper O ++ "\x27 expects a pattern, got " ++
            "KeywordExpression") rfl rfl hmem
      · by_cases h3 : os.valueType = "string"
        · have : validateOptionValue (strToUpper O) os (.keywordExpr B)
              (conflictFold c.command (strToUpper O) os.conflicts [] r3) =
              appendWarn (conflictFold c.command (strToUpper O) os.conflicts [] r3)
                ("Option \x27" ++ strToUpper O ++ "\x27 expects a string, got " ++
                  "KeywordExpression") := by
            simp [validateOptionValue, h1, h2, h3, exprType]
          rw [this] at hmem
          simp only [appendWarn] at hmem
          rw [hr1w] at hmem
          simp only [List.nil_append, List.mem_singleton] at hmem
          exact string_ne_of_head
            ("Unknown option \x27" ++ strToUpper B ++ "\x27 for command " ++ c.command)
            ("Option \x27" ++ strToUpper O ++ "\x27 expects a string, got " ++
              "KeywordExpression") rfl rfl hmem
        · have : validateOptionValue (strToUpper O) os (.keywordExpr B)
              (conflictFold c.command (strToUpper O) os.conflicts [] r3) =
              conflictFold c.command (strToUpper O) os.conflicts [] r3 := by
            simp [validateOptionValue, h1, h2, h3, exprType]
          rw [this, hr1w] at hmem
          simp at hmem

/-- Witness for C5 at `SET k v EX -60`. -/
theorem claim5_option_values_witness :
    hasErrorType (validateCommand ⟨"SET", [.identifier "k", .identifier "v",
      .keywordExpr "EX", .integerLit (-60)]⟩) "INVALID_VALUE_RANGE" := by
  have h := claim5_option_values
    ⟨"SET", [.identifier "k", .identifier "v", .keywordExpr "EX", .integerLit (-60)]⟩
    ⟨"SET", 2, -1, 0, ["key", "value"],
      [("EX", ⟨true, "integer", "Set expiry in seconds", []⟩),
       ("PX", ⟨true, "integer", "Set expiry in milliseconds", ["EX"]⟩),
       ("NX", ⟨false, "", "Only set if key doesn\x27t exist", ["XX"]⟩),
       ("XX", ⟨false, "", "Only set if key exists", ["NX"]⟩)],
      "Set the string value of a key"⟩
    "EX" ⟨true, "integer", "Set expiry in seconds", []⟩
    [.identifier "k", .identifier "v"] [.integerLit (-60)]
    (by decide) rfl (by decide) (by decide) rfl
  exact h.2.1 (-60) [] rfl rfl (Or.inl rfl) (by decide)

/-! ## Claim C7 — keyword case handling (amended) -/

theorem alookup_some_key_mem {α : Type} :
    ∀ (l : List (String × α)) (k : String) (v : α),
      alookup l k = some v → k ∈ l.map Prod.fst := by
  intro l
  induction l with
  | nil => intro k v h; simp [alookup] at h
  | cons p rest ih =>
    intro k v h
    simp only [alookup] at h
    split_ifs at h with hk
    · simp [← hk]
    · simp only [List.map_cons, List.mem_cons]
      exact Or.inr (ih k v h)

theorem lookupIdent_kw (u : String) (h : isKeywordType (lookupIdent u) = true) :
    u ∈ kwNames := by
  unfold lookupIdent at h
  rcases halo : alookup keywords u with _ | t
  · rw [halo] at h
    exact absurd h (by decide)
  · exact alookup_some_key_mem keywords u t halo

theorem nextToken_kw (l : List Char) :
    isKeywordType (nextToken l).1.type = true →
    strToUpper (nextToken l).1.literal ∈ kwNames := by
  unfold nextToken
  cases hsk : skipWhitespace l with
  | nil => intro h; exact absurd h (by decide)
  | cons c cs =>
    dsimp only
    by_cases h1 : c = '*'
    · rw [if_pos h1]; intro h; simp [isKeywordType] at h
    rw [if_neg h1]
    by_cases h2 : c = '?'
    · rw [if_pos h2]; intro h; simp [isKeywordType] at h
    rw [if_neg h2]
    by_cases h3 : c = '['
    · rw [if_pos h3]; intro h; simp [isKeywordType] at h
    rw [if_neg h3]
    by_cases h4 : c = ']'
    · rw [if_pos h4]; intro h; simp [isKeywordType] at h
    rw [if_neg h4]
    by_cases h5 : c = '('
    · rw [if_pos h5]; intro h; simp [isKeywordType] at h
    rw [if_neg h5]
    by_cases h6 : c = ')'
    · rw [if_pos h6]; intro h; simp [isKeywordType] at h
    rw [if_neg h6]
    by_cases h7 : c = ','
    · rw [if_pos h7]; intro h; simp [isKeywordType] at h
    rw [if_neg h7]
    by_cases h8 : c = ':'
    · rw [if_pos h8]; intro h; simp [isKeywordType] at h
    rw [if_neg h8]
    by_cases h9 : c = '|'
    · rw [if_pos h9]; intro h; simp [isKeywordType] at h
    rw [if_neg h9]
    by_cases h10 : c = '+'
    · rw [if_pos h10]; intro h; simp [isKeywordType] at h
    rw [if_neg h10]
    by_cases h11 : c = '-'
    · rw [if_pos h11]
      cases cs with
      | nil => intro h; simp [isKeywordType] at h
      | cons d ds =>
        intro h
        rcases hnum : readNumber (c :: d :: ds) with ⟨num, rnum⟩
        simp only [hnum] at h
        by_cases hd : isDigit d = true
        · simp only [hd, ite_true, if_true, isKeywordType, List.mem_cons,
            List.not_mem_nil, or_false] at h
          split at h <;> simp at h
        · simp [hd, isKeywordType] at h
    rw [if_neg h11]
    by_cases h12 : c = '"'
    · rw [if_pos h12]
      rcases hq : readQuoted '"' cs with ⟨v, r⟩
      simp only [hq]
      intro h; simp [isKeywordType] at h
    rw [if_neg h12]
    by_cases h13 : c = '\''
    · rw [if_pos h13]
      rcases hq2 : readQuoted '\'' cs with ⟨v, r⟩
      simp only [hq2]
      intro h; simp [isKeywordType] at h
    rw [if_neg h13]
    by_cases h14 : c = '\n'
    · rw [if_pos h14]; intro h; simp [isKeywordType] at h
    rw [if_neg h14]
    by_cases h15 : isLetter c = true
    · rw [if_pos h15]
      rcases hid : readIdentifier (c :: cs) with ⟨wid, rid⟩
      simp only [hid]
      intro h
      exact lookupIdent_kw _ h
    rw [if_neg h15]
    by_cases h16 : isDigit c = true
    · rw [if_pos h16]
      rcases hnum2 : readNumber (c :: cs) with ⟨num, rnum⟩
      simp only [hnum2]
      by_cases hc : num.contains '.' = true <;>
        simp only [hc, if_true, if_false, ite_true, ite_false] <;>
        (intro h; simp [isKeywordType] at h)
    rw [if_neg h16]
    intro h; simp [isKeywordType] at h

theorem tokenizeAux_good : ∀ (fuel : Nat) (l : List Char),
    goodToks (tokenizeAux fuel l) := by
  intro fuel
  induction fuel with
  | zero => intro l t ht; simp [tokenizeAux] at ht
  | succ fuel ih =>
    intro l t ht
    simp only [tokenizeAux] at ht
    split_ifs at ht with he
    · simp only [List.mem_singleton] at ht
      subst ht
      exact nextToken_kw l
    · simp only [List.mem_cons] at ht
      rcases ht with rfl | ht
      · exact nextToken_kw l
      · exact ih _ t ht

theorem parseExpressionF_keyword (fuel : Nat) (t : Token) (ts : List Token)
    (errs : List String) (h : isKeywordType t.type = true) :
    parseExpressionF (fuel + 1) (t :: ts) errs =
      (some (.keywordExpr t.literal), t :: ts, errs) := by
  obtain ⟨ty, lit⟩ := t
  cases ty <;> first | rfl | (simp [isKeywordType] at h)

theorem readIdentifier_all (l : List Char) (h : ∀ c ∈ l, isIdentChar c = true) :
    readIdentifier l = (l, []) := by
  induction l with
  | nil => rfl
  | cons c cs ih =>
    simp [readIdentifier, h c (List.mem_cons_self c cs),
      ih (fun x hx => h x (List.mem_cons_of_mem c hx))]

theorem isLetter_not_ws (c : Char) (h : isLetter c = true) :
    (c = ' ' || c = '\t' || c = '\r') = false := by
  by_cases h1 : c = ' '
  · subst h1; exact absurd h (by decide)
  by_cases h2 : c = '\t'
  · subst h2; exact absurd h (by decide)
  by_cases h3 : c = '\r'
  · subst h3; exact absurd h (by decide)
  simp [h1, h2, h3]

theorem skipWhitespace_letter (w : List Char)
    (hl0 : isLetter (w.headD 'a') = true) (hw : w ≠ []) :
    skipWhitespace w = w := by
  cases w with
  | nil => rfl
  | cons c cs =>
    simp only [List.headD_cons] at hl0
    simp [skipWhitespace, isLetter_not_ws c hl0]

theorem nextToken_ident (w : List Char) (hw : w ≠ [])
    (hall : ∀ c ∈ w, isIdentChar c = true)
    (hl0 : isLetter (w.headD 'a') = true) :
    nextToken w = (⟨lookupIdent (strToUpper ⟨w⟩), ⟨w⟩⟩, []) := by
  cases w with
  | nil => exact absurd rfl hw
  | cons c cs =>
    simp only [List.headD_cons] at hl0
    have hne : ∀ x : Char, isLetter x = false → c ≠ x := by
      intro x hx heq
      rw [heq] at hl0
      rw [hl0] at hx
      cases hx
    unfold nextToken
    rw [skipWhitespace_letter _ (by simpa using hl0) (by simp)]
    dsimp only
    rw [if_neg (hne '*' (by decide)), if_neg (hne '?' (by decide)),
      if_neg (hne '[' (by decide)), if_neg (hne ']' (by decide)),
      if_neg (hne '(' (by decide)), if_neg (hne ')' (by decide)),
      if_neg (hne ',' (by decide)), if_neg (hne ':' (by decide)),
      if_neg (hne '|' (by decide)), if_neg (hne '+' (by decide)),
      if_neg (hne '-' (by decide)), if_neg (hne '"' (by decide)),
      if_neg (hne '\'' (by decide)), if_neg (hne '\n' (by decide)),
      if_pos hl0]
    rw [readIdentifier_all (c :: cs) hall]

theorem isKeywordType_ne_eoft (ty : TokenType) (h : isKeywordType ty = true) :
    ty ≠ .EOFT := by
  intro he
  rw [he] at h
  exact absurd h (by decide)

theorem tokenizeAux_ident_ws (w : List Char) (fuel : Nat) (hw : w ≠ [])
    (hall : ∀ c ∈ w, isIdentChar c = true)
    (hl0 : isLetter (w.headD 'a') = true)
    (hkw : isKeywordType (lookupIdent (strToUpper ⟨w⟩)) = true) :
    tokenizeAux (fuel + 2) (' ' :: w) =
      [⟨lookupIdent (strToUpper ⟨w⟩), ⟨w⟩⟩, ⟨.EOFT, ""⟩] := by
  have hnt : nextToken (' ' :: w) = (⟨lookupIdent (strToUpper ⟨w⟩), ⟨w⟩⟩, []) := by
    have h1 : skipWhitespace (' ' :: w) = skipWhitespace w := by simp [skipWhitespace]
    have h2 : skipWhitespace (' ' :: w) = w := by
      rw [h1, skipWhitespace_letter w hl0 hw]
    rw [← nextToken_ident w hw hall hl0]
    unfold nextToken
    rw [h2, skipWhitespace_letter w hl0 hw]
  simp only [tokenizeAux, hnt]
  rw [if_neg (by simpa using isKeywordType_ne_eoft _ hkw)]
  rfl

/-- C7 amended: keyword recognition is case-insensitive, but the node keeps
the original spelling.  (A) every keyword-kinded token the lexer produces
has a literal whose UPPERCASE is one of the 9 reserved spellings (the token
kind comes from `LookupIdent(strings.ToUpper(literal))`); (B) the parser
copies that literal verbatim into the `KeywordExpression` node; (C) for
every identifier-shaped spelling `w` whose uppercase is a reserved keyword
— i.e. any letter case of any of the 9 keywords — `SET key val <w>` parses
with its option node carrying exactly `w`, not the uppercase form. -/
theorem claim7_amended_keyword_case (s : String) (w : String) :
    goodToks (tokenize s) ∧
    (∀ (fuel : Nat) (t : Token) (ts : List Token) (errs : List String),
      isKeywordType t.type = true →
      parseExpressionF (fuel + 1) (t :: ts) errs =
        (some (.keywordExpr t.literal), t :: ts, errs)) ∧
    (identShape w → strToUpper w ∈ kwNames →
      ParseCommand ("SET key val " ++ w) =
        (some ⟨"SET", [.identifier "key", .identifier "val", .keywordExpr w]⟩, [])) := by
  refine ⟨tokenizeAux_good _ _, fun fuel t ts errs h => parseExpressionF_keyword fuel t ts errs h, ?_⟩
  rintro ⟨hw, hall, hl0⟩ hkw
  have hkt : isKeywordType (lookupIdent (strToUpper w)) = true := by
    simp only [kwNames, keywords, List.map_cons, List.map_nil, List.mem_cons,
      List.not_mem_nil, or_false] at hkw
    rcases hkw with h | h | h | h | h | h | h | h | h <;> rw [h] <;> decide
  have hdata : ("SET key val " ++ w).data =
      'S' :: 'E' :: 'T' :: ' ' :: 'k' :: 'e' :: 'y' :: ' ' ::
      'v' :: 'a' :: 'l' :: ' ' :: w.data := by
    rw [String.data_append]
    rfl
  have hlen : ("SET key val " ++ w).length = w.data.length + 12 := by
    rw [String.length, hdata]
    simp
  have heta : (⟨w.data⟩ : String) = w := rfl
  have htok : tokenize ("SET key val " ++ w) =
      [⟨.IDENT, "SET"⟩, ⟨.IDENT, "key"⟩, ⟨.IDENT, "val"⟩,
       ⟨lookupIdent (strToUpper w), w⟩, ⟨.EOFT, ""⟩] := by
    rw [tokenize, hlen, hdata]
    have hstep : tokenizeAux (w.data.length + 12 + 1)
        ('S' :: 'E' :: 'T' :: ' ' :: 'k' :: 'e' :: 'y' :: ' ' ::
          'v' :: 'a' :: 'l' :: ' ' :: w.data) =
        ⟨.IDENT, "SET"⟩ :: ⟨.IDENT, "key"⟩ :: ⟨.IDENT, "val"⟩ ::
          tokenizeAux (w.data.length + 10) (' ' :: w.data) := rfl
    rw [hstep]
    have := tokenizeAux_ident_ws w.data (w.data.length + 8) (by simpa using hw) hall hl0
      (by rw [heta]; exact hkt)
    rw [show w.data.length + 10 = w.data.length + 8 + 2 from rfl, this, heta]
  rw [ParseCommand, htok]
  simp only [kwNames, keywords, List.map_cons, List.map_nil, List.mem_cons,
    List.not_mem_nil, or_false] at hkw
  rcases hkw with h | h | h | h | h | h | h | h | h <;> rw [h] <;> rfl

/-- Witness for C7 amended: the lowercase spelling `ex`. -/
theorem claim7_amended_keyword_case_witness :
    identShape "ex" ∧ strToUpper "ex" ∈ kwNames ∧
    ParseCommand ("SET key val " ++ "ex") =
      (some ⟨"SET", [.identifier "key", .identifier "val", .keywordExpr "ex"]⟩, []) := by
  refine ⟨⟨by decide, by decide, by decide⟩, by decide, ?_⟩
  exact (claim7_amended_keyword_case "" "ex").2.2 ⟨by decide, by decide, by decide⟩ (by decide)

/-! ## Claim C8 — error recovery (amended) -/

/-- C8 amended: on a statement not beginning with an identifier the parser
records the "expected command identifier" error and produces no command
node, but it recovers at the VERY NEXT TOKEN, not at the next statement
boundary: the program loop appends the nil statement of the failed parse,
advances one token, and re-attempts statement parsing there, so later
tokens of the same erroneous line can be parsed as new commands
(demonstrated by `123 GET mykey` parsing a `GET` command). -/
theorem claim8_amended_recovery :
    (∀ (fuel : Nat) (t : Token) (ts : List Token) (errs : List String)
        (acc : List Statement),
      t.type ≠ .IDENT → t.type ≠ .NEWLINE → t.type ≠ .EOFT →
      parseProgramF (fuel + 1) (t :: ts) errs acc =
        parseProgramF fuel ts
          (errs ++ ["expected command identifier, got " ++ tokenTypeName t.type])
          (acc ++ ([none] : List Statement))) ∧
    ParseCommands "123 GET mykey" =
      ([none, some ⟨"GET", [.identifier "mykey"]⟩],
        ["expected command identifier, got INT"]) := by
  constructor
  · intro fuel t ts errs acc hid hnl heof
    have hsn : skipNewlines (t :: ts) = t :: ts := by
      simp [skipNewlines, hnl]
    have hcur : curTok (t :: ts) = t := rfl
    simp only [parseProgramF, parseStatementF, parseRedisCommandF, hsn, hcur,
      advanceTok, heof, hid, if_neg, if_pos, ite_false, ite_true,
      not_false_iff, List.drop_succ_cons, List.drop_zero]
    simp [heof, hid]
  · decide

/-- Witness for C8 amended, at the token `123`. -/
theorem claim8_amended_recovery_witness :
    (⟨.INT, "123"⟩ : Token).type ≠ .IDENT ∧
    parseProgramF 4 [⟨.INT, "123"⟩] [] [] =
      parseProgramF 3 [] ["expected command identifier, got INT"] [none] := by
  refine ⟨by decide, ?_⟩
  exact claim8_amended_recovery.1 3 ⟨.INT, "123"⟩ [] [] []
    (by decide) (by decide) (by decide)

/-! ## Claim C1 — rendering round-trip -/

/-- C1 (code bug): the claim — and spec §6/§8 — require `to_text` of every
syntactically valid parsed command to re-parse to an equal AST.  The input
`GET 'a"b'` parses without syntax errors to one string argument `a"b`, but
`StringLiteral.String()` wraps the value in double quotes without escaping,
so the rendering `GET "a"b"` re-parses (again without syntax errors) to the
three arguments `"a"`, `b`, `""` — a different AST. -/
theorem claim1_roundtrip_failure :
    ParseCommand "GET \x27a\"b\x27" =
      (some ⟨"GET", [.stringLit "a\"b"]⟩, []) ∧
    RedisCommand.render ⟨"GET", [.stringLit "a\"b"]⟩ = "GET \"a\"b\"" ∧
    ParseCommand "GET \"a\"b\"" =
      (some ⟨"GET", [.stringLit "a", .identifier "b", .stringLit ""]⟩, []) ∧
    (⟨"GET", [.stringLit "a", .identifier "b", .stringLit ""]⟩ : RedisCommand) ≠
      ⟨"GET", [.stringLit "a\"b"]⟩ := by
  refine ⟨by decide, by decide, by decide, by decide⟩

/-! ## Claim C9 — the SCAN example scenario -/

/-- C9: `SCAN 0 MATCH user:* COUNT 10` parses without syntax errors into
exactly the five arguments [integer 0, keyword MATCH, one merged pattern
`user:*`, keyword COUNT, integer 10], and validates with no errors. -/
theorem claim9_scan_example :
    ParseCommand "SCAN 0 MATCH user:* COUNT 10" =
      (some ⟨"SCAN", [.integerLit 0, .keywordExpr "MATCH", .patternExpr "user:*",
        .keywordExpr "COUNT", .integerLit 10]⟩, []) ∧
    (validateCommand ⟨"SCAN", [.integerLit 0, .keywordExpr "MATCH",
      .patternExpr "user:*", .keywordExpr "COUNT", .integerLit 10]⟩).valid = true ∧
    (validateCommand ⟨"SCAN", [.integerLit 0, .keywordExpr "MATCH",
      .patternExpr "user:*", .keywordExpr "COUNT", .integerLit 10]⟩).errors = [] := by
  refine ⟨by decide, by decide, by decide⟩

/-! ## Counterexamples for claims C3, C7 and C8 -/


/-- C3 counterexample: `SET key val EX NX XX` parses cleanly and contains
both NX and XX — a mutually declared conflicting pair of SET's option table
— yet validation produces no OPTION_CONFLICT error, because EX consumes the
NX keyword as its (ill-typed) value and the scan skips it, so NX is never
recorded as seen. -/
theorem claim3_counterexample :
    ParseCommand "SET key val EX NX XX" =
      (some ⟨"SET", [.identifier "key", .identifier "val", .keywordExpr "EX",
        .keywordExpr "NX", .keywordExpr "XX"]⟩, []) ∧
    "XX" ∈ declaredConflicts "SET" "NX" ∧ "NX" ∈ declaredConflicts "SET" "XX" ∧
    ∀ e ∈ (validateCommand ⟨"SET", [.identifier "key", .identifier "val",
      .keywordExpr "EX", .keywordExpr "NX", .keywordExpr "XX"]⟩).errors,
      e.etype ≠ "OPTION_CONFLICT" := by
  refine ⟨by decide, by decide, by decide, by decide⟩

/-- C7 counterexample: with the keyword written `ex`, the parser produces a
keyword-option node whose value is the original spelling "ex", not the
uppercase "EX" the claim asserts (only the token KIND comes from the
upper-cased lookup). -/
theorem claim7_counterexample :
    ParseCommand "SET key val ex 60" =
      (some ⟨"SET", [.identifier "key", .identifier "val", .keywordExpr "ex",
        .integerLit 60]⟩, []) ∧
    ("ex" : String) ≠ "EX" := by
  refine ⟨by decide, by decide⟩

/-- C8 counterexample: after the bad statement start `123`, the parser does
NOT skip to the next newline — it retries from the very next token, so the
remaining tokens of the same line are parsed as the command `GET mykey`
(preceded by the typed-nil statement entry of the failed parse). -/
theorem claim8_counterexample :
    ParseCommands "123 GET mykey" =
      ([none, some ⟨"GET", [.identifier "mykey"]⟩],
        ["expected command identifier, got INT"]) ∧
    some (⟨"GET", [.identifier "mykey"]⟩ : RedisCommand) ∈
      (ParseCommands "123 GET mykey").1 := by
  refine ⟨by decide, by decide⟩

end RedisAnalyzer
